import Mathlib

/-!
Shallow embedding of the bicing research bot (src/main.py): the CSV record
store, the per-field validators, the add-flow conversation state machine and
the update-flow state machine, together with theorems checking the
specification claims against this embedding.

Modelling conventions:
  - a Python dict holding the in-progress record is an association list kept
    in insertion order; assignment updates in place, insertion appends;
  - a Telegram message is either a text message or a structured location
    message; for a location message, message.text is None and the two float
    coordinates are abstracted as their rendered decimal strings;
  - the CSV file content is a list of rows (each row a list of cell strings
    in CSV_COLUMNS order, the header row being implicit);
  - datetime.now().strftime is abstracted as an arbitrary timestamp string
    passed in as a parameter named now.
-/

namespace BicingBot

/-- The CSV_COLUMNS list from src/main.py, in source order. -/
def CSV_COLUMNS : List String :=
  ["Serial ID",
   "Inventory Tag",
   "Pedaling Rate",
   "Left Brake Rate",
   "Right Brake Rate",
   "Tires Rate",
   "Appearence Rate",
   "Battery Level",
   "Is Straight Parking Angel",
   "Seat Hight",
   "Location",
   "Speed Rate",
   "Note",
   "Date"]

/-- A record is a Python dict from field name to string value, modelled as an
association list in insertion order. -/
abbrev Record := List (String × String)

/-- Python dict read access: the value stored under a key, if present. -/
def dictGet : Record → String → Option String
  | [], _ => none
  | (k1, v1) :: rest, k => if k1 = k then some v1 else dictGet rest k

/-- Python dict assignment: update the value in place if the key exists
(keeping its position), otherwise append the new pair at the end. -/
def dictSet : Record → String → String → Record
  | [], k, v => [(k, v)]
  | (k1, v1) :: rest, k, v =>
    if k1 = k then (k, v) :: rest else (k1, v1) :: dictSet rest k v

/-- Translation of the pattern `if k not in rd: rd[k] = v` used by every Skip
branch of the add flow. -/
def setIfAbsent (r : Record) (k v : String) : Record :=
  if (dictGet r k).isSome then r else dictSet r k v

/-- Reading row[k] on a record loaded from the CSV (the key is always present
for well-formed rows; an absent key defaults to the empty string, matching
what csv.DictWriter writes for a missing key). -/
def getField (r : Record) (k : String) : String := (dictGet r k).getD ""

/-- One CSV data row produced by csv.DictWriter for a record: the values
under the CSV_COLUMNS keys, in column order (restval is the empty string). -/
def saveRow (r : Record) : List String :=
  CSV_COLUMNS.map (fun c => (dictGet r c).getD "")

/-- write_csv from src/main.py: the rows written for a list of records. -/
def write_csv (recs : List Record) : List (List String) :=
  recs.map saveRow

/-- read_csv from src/main.py: csv.DictReader pairs each data row with the
header columns, giving one dict per row. -/
def read_csv (t : List (List String)) : List Record :=
  t.map (fun row => CSV_COLUMNS.zip row)

/-- Python str.isdigit for the digit strings this program handles: true
exactly when the string is nonempty and every character is a decimal digit. -/
def pyIsdigit (s : String) : Bool :=
  !s.data.isEmpty && s.data.all (fun c => c.isDigit)

/-- Numeric value of a decimal digit character. -/
def digitVal (c : Char) : Nat := c.toNat - 48

/-- Python int(s) on a digit string: left fold over the decimal digits. -/
def digitsToNat (s : String) : Nat :=
  s.data.foldl (fun a c => 10 * a + digitVal c) 0

/-- The integer-range check shared by all rate, battery and seat-height
branches: text.isdigit() and lo <= int(text) <= hi (the source writes the
negation: not isdigit or int < lo or int > hi rejects). -/
def validateIntRange (lo hi : Nat) (s : String) : Bool :=
  pyIsdigit s && decide (lo ≤ digitsToNat s) && decide (digitsToNat s ≤ hi)

/-- An inbound Telegram message: either a text message or a structured
location message (coordinates abstracted as rendered decimal strings). -/
inductive Msg where
  | text (s : String)
  | location (lat lon : String)
deriving DecidableEq

/-- The message.text attribute: None for a location message. -/
def Msg.pyText : Msg → Option String
  | .text s => some s
  | .location _ _ => none

/-- The add-flow conversation states SERIAL_ID .. NOTE from src/main.py. -/
inductive AddState where
  | serialId
  | inventoryTag
  | location
  | parkingAngel
  | tiresRate
  | seatHeight
  | appearenceRate
  | batteryLevel
  | leftBrakeRate
  | rightBrakeRate
  | pedalingRate
  | speedRate
  | note
deriving DecidableEq

/-- The record field written by each add-flow step handler. -/
def fieldOf : AddState → String
  | .serialId => "Serial ID"
  | .inventoryTag => "Inventory Tag"
  | .location => "Location"
  | .parkingAngel => "Is Straight Parking Angel"
  | .tiresRate => "Tires Rate"
  | .seatHeight => "Seat Hight"
  | .appearenceRate => "Appearence Rate"
  | .batteryLevel => "Battery Level"
  | .leftBrakeRate => "Left Brake Rate"
  | .rightBrakeRate => "Right Brake Rate"
  | .pedalingRate => "Pedaling Rate"
  | .speedRate => "Speed Rate"
  | .note => "Note"

/-- The state each Back branch returns to (none at the Serial ID step, which
offers no Back). -/
def addPrev : AddState → Option AddState
  | .serialId => none
  | .inventoryTag => some .serialId
  | .location => some .inventoryTag
  | .parkingAngel => some .location
  | .tiresRate => some .parkingAngel
  | .seatHeight => some .tiresRate
  | .appearenceRate => some .seatHeight
  | .batteryLevel => some .appearenceRate
  | .leftBrakeRate => some .batteryLevel
  | .rightBrakeRate => some .leftBrakeRate
  | .pedalingRate => some .rightBrakeRate
  | .speedRate => some .pedalingRate
  | .note => some .speedRate

/-- The prompt text each Back branch re-emits, copied from the source. -/
def backPrompt : AddState → String
  | .serialId => ""
  | .inventoryTag => "Enter Serial ID:"
  | .location => "Enter Inventory Tag:"
  | .parkingAngel => "Location:"
  | .tiresRate => "Is Straight Parking Angel?"
  | .seatHeight => "Tires Rate (0-10):"
  | .appearenceRate => "Seat Hight (1-10):"
  | .batteryLevel => "Appearence Rate (0-10):"
  | .leftBrakeRate => "Battery Level (0-4):"
  | .rightBrakeRate => "Left Brake Rate (0-10):"
  | .pedalingRate => "Right Brake Rate (0-10):"
  | .speedRate => "Pedaling Rate (0-10):"
  | .note => "Speed Rate (0-10):"

/-- format_summary from src/main.py: iterates the dict in insertion order. -/
def format_summary (data : Record) : String :=
  data.foldl (fun acc kv => acc ++ kv.1 ++ ": " ++ kv.2 ++ "\n") "Summary:\n\n"

/-- Result of one add-flow step handler: next conversation state (none for
END), the conversation user_data record afterwards, the texts replied, and
the record committed to the CSV when the handler finalizes. -/
structure AddOut where
  next : Option AddState
  record : Record
  replies : List String
  finalized : Option Record

/-- One add-flow step: the thirteen handlers add_serial_id .. add_note from
src/main.py, dispatched on the conversation state. States other than
LOCATION are registered for text messages only, so a location message there
is not delivered (state and record unchanged, no reply). -/
def addStep (now : String) (s : AddState) (r : Record) (m : Msg) : AddOut :=
  match s with
  | .serialId =>
    match m.pyText with
    | none => ⟨some .serialId, r, [], none⟩
    | some t =>
      if t = "Cancel" then ⟨none, [], ["Cancelled"], none⟩
      else ⟨some .inventoryTag, dictSet r "Serial ID" t, ["Enter Inventory Tag:"], none⟩
  | .inventoryTag =>
    match m.pyText with
    | none => ⟨some .inventoryTag, r, [], none⟩
    | some t =>
      if t = "Skip" then
        ⟨some .location, setIfAbsent r "Inventory Tag" "N/A", ["Location:"], none⟩
      else if t = "Back" then
        ⟨some .serialId, r, ["Enter Serial ID:"], none⟩
      else
        ⟨some .location, dictSet r "Inventory Tag" t, ["Location:"], none⟩
  | .location =>
    match m with
    | .text t =>
      if t = "Skip" then
        ⟨some .parkingAngel, setIfAbsent r "Location" "N/A",
          ["Is Straight Parking Angel? "], none⟩
      else if t = "Back" then
        ⟨some .inventoryTag, r, ["Enter Inventory Tag:"], none⟩
      else
        ⟨some .location, r, ["Please share location or skip:"], none⟩
    | .location lat lon =>
      ⟨some .parkingAngel, dictSet r "Location" (lat ++ ", " ++ lon),
        ["Is Straight Parking Angel? "], none⟩
  | .parkingAngel =>
    match m.pyText with
    | none => ⟨some .parkingAngel, r, [], none⟩
    | some t =>
      if t = "Skip" then
        ⟨some .tiresRate, setIfAbsent r "Is Straight Parking Angel" "N/A",
          ["Tires Rate (0-10):"], none⟩
      else if t = "Back" then
        ⟨some .location, r, ["Location:"], none⟩
      else if t.toLower = "true" ∨ t.toLower = "false" then
        ⟨some .tiresRate, dictSet r "Is Straight Parking Angel" t.toLower,
          ["Tires Rate (0-10):"], none⟩
      else
        ⟨some .parkingAngel, r, ["Select \x27True\x27 or \x27False\x27:"], none⟩
  | .tiresRate =>
    match m.pyText with
    | none => ⟨some .tiresRate, r, [], none⟩
    | some t =>
      if t = "Skip" then
        ⟨some .seatHeight, setIfAbsent r "Tires Rate" "N/A", ["Seat Hight (1-10):"], none⟩
      else if t = "Back" then
        ⟨some .parkingAngel, r, ["Is Straight Parking Angel?"], none⟩
      else if validateIntRange 0 10 t then
        ⟨some .seatHeight, dictSet r "Tires Rate" t, ["Seat Hight (1-10):"], none⟩
      else
        ⟨some .tiresRate, r, ["Select a valid rate (0-10):"], none⟩
  | .seatHeight =>
    match m.pyText with
    | none => ⟨some .seatHeight, r, [], none⟩
    | some t =>
      if t = "Skip" then
        ⟨some .appearenceRate, setIfAbsent r "Seat Hight" "N/A",
          ["Appearence Rate (0-10):"], none⟩
      else if t = "Back" then
        ⟨some .tiresRate, r, ["Tires Rate (0-10):"], none⟩
      else if validateIntRange 1 10 t then
        ⟨some .appearenceRate, dictSet r "Seat Hight" t, ["Appearence Rate (0-10):"], none⟩
      else
        ⟨some .seatHeight, r, ["Select a valid height (1-10):"], none⟩
  | .appearenceRate =>
    match m.pyText with
    | none => ⟨some .appearenceRate, r, [], none⟩
    | some t =>
      if t = "Skip" then
        ⟨some .batteryLevel, setIfAbsent r "Appearence Rate" "N/A",
          ["Battery Level (0-4):"], none⟩
      else if t = "Back" then
        ⟨some .seatHeight, r, ["Seat Hight (1-10):"], none⟩
      else if validateIntRange 0 10 t then
        ⟨some .batteryLevel, dictSet r "Appearence Rate" t, ["Battery Level (0-4):"], none⟩
      else
        ⟨some .appearenceRate, r, ["Select a valid rate (0-10):"], none⟩
  | .batteryLevel =>
    match m.pyText with
    | none => ⟨some .batteryLevel, r, [], none⟩
    | some t =>
      if t = "Skip" then
        ⟨some .leftBrakeRate, setIfAbsent r "Battery Level" "N/A",
          ["Left Brake Rate (0-10):"], none⟩
      else if t = "Back" then
        ⟨some .appearenceRate, r, ["Appearence Rate (0-10):"], none⟩
      else if validateIntRange 0 4 t then
        ⟨some .leftBrakeRate, dictSet r "Battery Level" t, ["Left Brake Rate (0-10):"], none⟩
      else
        ⟨some .batteryLevel, r, ["Select a valid battery level (0-4):"], none⟩
  | .leftBrakeRate =>
    match m.pyText with
    | none => ⟨some .leftBrakeRate, r, [], none⟩
    | some t =>
      if t = "Skip" then
        ⟨some .rightBrakeRate, setIfAbsent r "Left Brake Rate" "N/A",
          ["Right Brake Rate (0-10):"], none⟩
      else if t = "Back" then
        ⟨some .batteryLevel, r, ["Battery Level (0-4):"], none⟩
      else if validateIntRange 0 10 t then
        ⟨some .rightBrakeRate, dictSet r "Left Brake Rate" t,
          ["Right Brake Rate (0-10):"], none⟩
      else
        ⟨some .leftBrakeRate, r, ["Select a valid rate (0-10):"], none⟩
  | .rightBrakeRate =>
    match m.pyText with
    | none => ⟨some .rightBrakeRate, r, [], none⟩
    | some t =>
      if t = "Skip" then
        ⟨some .pedalingRate, setIfAbsent r "Right Brake Rate" "N/A",
          ["Pedaling Rate (0-10):"], none⟩
      else if t = "Back" then
        ⟨some .leftBrakeRate, r, ["Left Brake Rate (0-10):"], none⟩
      else if validateIntRange 0 10 t then
        ⟨some .pedalingRate, dictSet r "Right Brake Rate" t,
          ["Pedaling Rate (0-10):"], none⟩
      else
        ⟨some .rightBrakeRate, r, ["Select a valid rate (0-10):"], none⟩
  | .pedalingRate =>
    match m.pyText with
    | none => ⟨some .pedalingRate, r, [], none⟩
    | some t =>
      if t = "Skip" then
        ⟨some .speedRate, setIfAbsent r "Pedaling Rate" "N/A", ["Speed Rate (0-10):"], none⟩
      else if t = "Back" then
        ⟨some .rightBrakeRate, r, ["Right Brake Rate (0-10):"], none⟩
      else if validateIntRange 0 10 t then
        ⟨some .speedRate, dictSet r "Pedaling Rate" t, ["Speed Rate (0-10):"], none⟩
      else
        ⟨some .pedalingRate, r, ["Select a valid rate (0-10):"], none⟩
  | .speedRate =>
    match m.pyText with
    | none => ⟨some .speedRate, r, [], none⟩
    | some t =>
      if t = "Skip" then
        ⟨some .note, setIfAbsent r "Speed Rate" "N/A", ["Any notes?"], none⟩
      else if t = "Back" then
        ⟨some .pedalingRate, r, ["Pedaling Rate (0-10):"], none⟩
      else if validateIntRange 0 10 t then
        ⟨some .note, dictSet r "Speed Rate" t, ["Any notes?"], none⟩
      else
        ⟨some .speedRate, r, ["Select a valid rate (0-10):"], none⟩
  | .note =>
    match m.pyText with
    | none => ⟨some .note, r, [], none⟩
    | some t =>
      if t = "Skip" then
        let r2 := dictSet (setIfAbsent r "Note" "N/A") "Date" now
        ⟨none, [], [format_summary r2, "Saved"], some r2⟩
      else if t = "Back" then
        ⟨some .speedRate, r, ["Speed Rate (0-10):"], none⟩
      else
        let r2 := dictSet (dictSet r "Note" t) "Date" now
        ⟨none, [], [format_summary r2, "Saved"], some r2⟩

/-- Drive the add flow over a list of inbound messages, starting from a given
state, record and CSV content. Finalizing appends the committed record to the
re-read store and rewrites it, exactly as add_note does. -/
def runAddFrom (now : String) :
    AddState → Record → List (List String) → List Msg →
      Option (AddState × Record) × List (List String)
  | s, r, t, [] => (some (s, r), t)
  | s, r, t, m :: ms =>
    let o := addStep now s r m
    let t2 := match o.finalized with
      | some rcd => write_csv (read_csv t ++ [rcd])
      | none => t
    match o.next with
    | none => (none, t2)
    | some s2 => runAddFrom now s2 o.record t2 ms

/-- The add flow from its entry point add_start: empty in-progress record,
state SERIAL_ID. -/
def runAdd (now : String) (msgs : List Msg) (t : List (List String)) :
    Option (AddState × Record) × List (List String) :=
  runAddFrom now .serialId [] t msgs

/-- The list comprehension of delete_command: keep the records whose Serial
ID differs from the target (all matches are removed). -/
def deleteRecords (data : List Record) (id : String) : List Record :=
  data.filter (fun row => getField row "Serial ID" != id)

/-- delete_command from src/main.py, after the identifier has been computed:
reads the store, filters, writes back only when the length shrank; the Bool
reports whether a deletion happened. -/
def delete_command (t : List (List String)) (id : String) :
    List (List String) × Bool :=
  let data := read_csv t
  let data2 := deleteRecords data id
  if data2.length < data.length then (write_csv data2, true) else (t, false)

/-- The lookup loop of update_start: first record whose Serial ID matches. -/
def findBySerialId (data : List Record) (id : String) : Option Record :=
  data.find? (fun row => getField row "Serial ID" == id)

/-- The update loop of update_value: set the field on the first matching
record only (the loop breaks after the first match). -/
def upsertFirst : List Record → String → String → String → List Record
  | [], _, _, _ => []
  | row :: rest, id, field, v =>
    if getField row "Serial ID" = id then dictSet row field v :: rest
    else row :: upsertFirst rest id field v

/-- Helper for pySplit: walk the characters, accumulating the current token
in reverse; whitespace ends a token, runs of whitespace produce nothing. -/
def splitWsAux : List Char → List Char → List String
  | [], acc => if acc.isEmpty then [] else [String.mk acc.reverse]
  | c :: cs, acc =>
    if c.isWhitespace then
      if acc.isEmpty then splitWsAux cs []
      else String.mk acc.reverse :: splitWsAux cs []
    else splitWsAux cs (c :: acc)

/-- Python str.split() with no argument, as the transport uses to compute
context.args from the text after the command verb: split on whitespace runs,
dropping empty pieces. -/
def pySplit (s : String) : List String := splitWsAux s.data []

/-- Python single-space str.join over a token list. -/
def joinArgs : List String → String
  | [] => ""
  | [a] => a
  | a :: rest => a ++ " " ++ joinArgs rest

/-- The identifier delete_command and update_start compare against, for a
given command-line remainder: a single space joined over context.args. -/
def joinedSerialId (rest : String) : String :=
  joinArgs (pySplit rest)

/-- The delete command from the command line remainder: usage error when no
argument tokens, otherwise delete_command on the joined identifier. -/
def delete_cmd (rest : String) (t : List (List String)) :
    List (List String) × Bool :=
  if (pySplit rest).isEmpty then (t, false)
  else delete_command t (joinedSerialId rest)

/-- The two update-flow conversation states UPDATE_FIELD and UPDATE_VALUE. -/
inductive UpdState where
  | chooseField
  | provideValue
deriving DecidableEq

/-- The field-choice keyboard of update_start: every column except Serial ID
and Date. -/
def updatableColumns : List String :=
  CSV_COLUMNS.filter (fun c => !(c = "Serial ID" || c = "Date"))

/-- Result of the update_field handler: next state (none for END) and the
chosen field stored in user_data, when one was accepted. -/
structure UpdFieldOut where
  next : Option UpdState
  chosen : Option String

/-- update_field from src/main.py: Cancel ends, a name outside the allowed
set re-prompts, a valid field name moves to UPDATE_VALUE. -/
def update_field_step (t : String) : UpdFieldOut :=
  if t = "Cancel" then ⟨none, none⟩
  else if ¬ CSV_COLUMNS.contains t ∨ t = "Serial ID" ∨ t = "Date" then
    ⟨some .chooseField, none⟩
  else ⟨some .provideValue, some t⟩

/-- The rate fields sharing the 0-10 validation branch in update_value. -/
def rateFields : List String :=
  ["Pedaling Rate", "Left Brake Rate", "Right Brake Rate",
   "Tires Rate", "Appearence Rate", "Speed Rate"]

/-- What update_value decides to do with an inbound message before reaching
the common write section: write a value, go back to the field choice, or
stay in UPDATE_VALUE (invalid input, text where a location is required, or
the unhandled None.isdigit() fault which leaves state and store unchanged). -/
inductive UpdAction where
  | write (v : String)
  | back
  | stay
deriving DecidableEq

/-- The branching of update_value from src/main.py, producing the action. -/
def update_value_action (field : String) (m : Msg) : UpdAction :=
  if m.pyText = some "Skip" then .write "N/A"
  else if m.pyText = some "Back" then .back
  else if field = "Location" then
    match m with
    | .location lat lon => .write (lat ++ ", " ++ lon)
    | .text _ => .stay
  else if field = "Note" ∨ field = "Inventory Tag" then
    .write ((m.pyText).getD "")
  else
    match m.pyText with
    | none => .stay
    | some t =>
      if rateFields.contains field then
        if validateIntRange 0 10 t then .write t else .stay
      else if field = "Battery Level" then
        if validateIntRange 0 4 t then .write t else .stay
      else if field = "Is Straight Parking Angel" then
        if t.toLower = "true" ∨ t.toLower = "false" then .write t.toLower else .stay
      else if field = "Seat Hight" then
        if validateIntRange 1 10 t then .write t else .stay
      else .write t

/-- Result of the update_value handler: next state (none for END) and the
CSV content afterwards. -/
structure UpdOut where
  next : Option UpdState
  table : List (List String)

/-- update_value from src/main.py: on a write action, re-read the store, set
the field on the first matching record and rewrite the whole file. -/
def update_value_step (field serial : String) (m : Msg)
    (t : List (List String)) : UpdOut :=
  match update_value_action field m with
  | .write v => ⟨none, write_csv (upsertFirst (read_csv t) serial field v)⟩
  | .back => ⟨some .chooseField, t⟩
  | .stay => ⟨some .provideValue, t⟩

/-- Per-column value acceptance, read off the validation branches of
update_value: rates 0-10, battery 0-4, seat height 1-10, the parking-angel
booleans; every other column (identifier, free text, rendered location
payloads, the stamped date) accepts any string. -/
def validForField (field v : String) : Bool :=
  if rateFields.contains field then validateIntRange 0 10 v
  else if field = "Battery Level" then validateIntRange 0 4 v
  else if field = "Is Straight Parking Angel" then v = "true" || v = "false"
  else if field = "Seat Hight" then validateIntRange 1 10 v
  else true

/-- A stored cell is acceptable for its column: validator-accepted or the
sentinel. -/
def fieldOK (c v : String) : Prop := validForField c v = true ∨ v = "N/A"

/-- A well-formed CSV data row: exactly one acceptable cell per schema
column, positionally. -/
def WFrow (row : List String) : Prop := List.Forall₂ fieldOK CSV_COLUMNS row

/-- The store invariant on the CSV content. -/
def tableWF (t : List (List String)) : Prop := ∀ row ∈ t, WFrow row

/-- Every pair held in an in-progress record is acceptable for its key. -/
def recordOK (r : Record) : Prop := ∀ p ∈ r, fieldOK p.1 p.2

/-- The add-flow states in wizard order. -/
def stepsList : List AddState :=
  [.serialId, .inventoryTag, .location, .parkingAngel, .tiresRate, .seatHeight,
   .appearenceRate, .batteryLevel, .leftBrakeRate, .rightBrakeRate,
   .pedalingRate, .speedRate, .note]

/-- Position of a state in the wizard order. -/
def stepIdx : AddState → Nat
  | .serialId => 0
  | .inventoryTag => 1
  | .location => 2
  | .parkingAngel => 3
  | .tiresRate => 4
  | .seatHeight => 5
  | .appearenceRate => 6
  | .batteryLevel => 7
  | .leftBrakeRate => 8
  | .rightBrakeRate => 9
  | .pedalingRate => 10
  | .speedRate => 11
  | .note => 12

/-- The fields of all steps strictly before a given state. -/
def fieldsBefore (s : AddState) : List String :=
  (stepsList.take (stepIdx s)).map fieldOf

/-- Reachability invariant of the add flow: the in-progress record holds
acceptable values and every field of an earlier step is already present. -/
def Inv (s : AddState) (r : Record) : Prop :=
  recordOK r ∧ ∀ k ∈ fieldsBefore s, (dictGet r k).isSome = true

/-- The record an add-flow step leaves behind: the committed record when the
step finalizes, else the in-progress record. -/
def effRecord (o : AddOut) : Record := o.finalized.getD o.record

theorem dictGet_dictSet : ∀ (r : Record) (f v k : String),
    dictGet (dictSet r f v) k = if f = k then some v else dictGet r k
  | [], f, v, k => by simp [dictSet, dictGet]
  | (k1, v1) :: rest, f, v, k => by
    by_cases h1 : k1 = f
    · by_cases h2 : f = k
      · simp [dictSet, dictGet, h1, h2]
      · have h3 : ¬ k1 = k := fun e => h2 (h1 ▸ e)
        simp [dictSet, dictGet, h1, h2, h3]
    · by_cases h2 : k1 = k
      · have h3 : ¬ f = k := fun e => h1 (h2.trans e.symm)
        have h4 : ¬ k = f := fun e => h3 e.symm
        simp [dictSet, dictGet, h1, h2, h3, h4]
      · simp [dictSet, dictGet, h1, h2, dictGet_dictSet rest f v k]

theorem mem_dictSet : ∀ {r : Record} {f v : String} {p : String × String},
    p ∈ dictSet r f v → p = (f, v) ∨ p ∈ r
  | [], f, v, p => by
    intro h
    simpa [dictSet] using h
  | (k1, v1) :: rest, f, v, p => by
    intro h
    by_cases h1 : k1 = f
    · simp only [dictSet, if_pos h1, List.mem_cons] at h
      rcases h with h | h
      · exact Or.inl h
      · exact Or.inr (List.mem_cons_of_mem _ h)
    · simp only [dictSet, if_neg h1, List.mem_cons] at h
      rcases h with h | h
      · exact Or.inr (by rw [h]; exact List.mem_cons_self _ _)
      · rcases mem_dictSet h with h2 | h2
        · exact Or.inl h2
        · exact Or.inr (List.mem_cons_of_mem _ h2)

theorem mem_of_dictGet : ∀ {r : Record} {k v : String},
    dictGet r k = some v → (k, v) ∈ r
  | [], k, v => by
    intro h
    simp [dictGet] at h
  | (k1, v1) :: rest, k, v => by
    intro h
    by_cases h1 : k1 = k
    · simp only [dictGet, if_pos h1, Option.some.injEq] at h
      rw [← h1, ← h]
      exact List.mem_cons_self _ _
    · simp only [dictGet, if_neg h1] at h
      exact List.mem_cons_of_mem _ (mem_of_dictGet h)

theorem isSome_dictSet_of {r : Record} {f v k : String}
    (h : k ≠ f → (dictGet r k).isSome = true) :
    (dictGet (dictSet r f v) k).isSome = true := by
  rw [dictGet_dictSet]
  by_cases hfk : f = k
  · simp [hfk]
  · simp only [if_neg hfk]
    exact h (fun e => hfk e.symm)

theorem isSome_setIfAbsent_of {r : Record} {f v k : String}
    (h : k ≠ f → (dictGet r k).isSome = true) :
    (dictGet (setIfAbsent r f v) k).isSome = true := by
  unfold setIfAbsent
  split
  · by_cases hkf : k = f
    · subst hkf; assumption
    · exact h hkf
  · exact isSome_dictSet_of h

theorem isSome_setIfAbsent_self {r : Record} {k v : String} :
    (dictGet (setIfAbsent r k v) k).isSome = true :=
  isSome_setIfAbsent_of (fun h => absurd rfl h)

theorem recordOK_dictSet {r : Record} {k v : String}
    (h : recordOK r) (hf : fieldOK k v) : recordOK (dictSet r k v) := by
  intro p hp
  rcases mem_dictSet hp with rfl | hp2
  · exact hf
  · exact h p hp2

theorem recordOK_setIfAbsent {r : Record} {k v : String}
    (h : recordOK r) (hf : fieldOK k v) : recordOK (setIfAbsent r k v) := by
  unfold setIfAbsent
  split
  · exact h
  · exact recordOK_dictSet h hf

theorem upsertFirst_append (pre : List Record) (row : Record)
    (post : List Record) (id field v : String)
    (hpre : ∀ q ∈ pre, getField q "Serial ID" ≠ id)
    (hrow : getField row "Serial ID" = id) :
    upsertFirst (pre ++ row :: post) id field v
      = pre ++ dictSet row field v :: post := by
  induction pre with
  | nil => simp [upsertFirst, hrow]
  | cons q rest ih =>
    have hq : getField q "Serial ID" ≠ id := hpre q (List.mem_cons_self _ _)
    simp only [List.cons_append, upsertFirst, if_neg hq, List.append_eq]
    rw [ih (fun x hx => hpre x (List.mem_cons_of_mem _ hx))]

/-- C1. Skip semantics differ between the flows: an add-flow step sets the
sentinel only when the field has no prior value and otherwise keeps the
stored value, whereas the ProvideValue state of the update flow always
writes the sentinel on Skip, overwriting whatever the first matching record
held in the chosen field. -/
theorem C1_skip_semantics :
    (∀ now s r v, s ≠ AddState.serialId → dictGet r (fieldOf s) = some v →
      dictGet (effRecord (addStep now s r (Msg.text "Skip"))) (fieldOf s) = some v) ∧
    (∀ now s r, s ≠ AddState.serialId → dictGet r (fieldOf s) = none →
      dictGet (effRecord (addStep now s r (Msg.text "Skip"))) (fieldOf s) = some "N/A") ∧
    (∀ field serial m t, m.pyText = some "Skip" →
      update_value_step field serial m t =
        ⟨none, write_csv (upsertFirst (read_csv t) serial field "N/A")⟩) ∧
    (∀ pre row post id field v0, (∀ q ∈ pre, getField q "Serial ID" ≠ id) →
      getField row "Serial ID" = id → dictGet row field = some v0 →
      upsertFirst (pre ++ row :: post) id field "N/A"
          = pre ++ dictSet row field "N/A" :: post ∧
      dictGet (dictSet row field "N/A") field = some "N/A") := by
  refine ⟨?_, ?_, ?_, ?_⟩
  · intro now s r v hs hv
    cases s <;>
      simp_all [addStep, Msg.pyText, effRecord, setIfAbsent, dictGet_dictSet, fieldOf]
  · intro now s r hs hv
    cases s <;>
      simp_all [addStep, Msg.pyText, effRecord, setIfAbsent, dictGet_dictSet, fieldOf]
  · intro field serial m t hm
    simp [update_value_step, update_value_action, hm]
  · intro pre row post id field v0 hpre hrow hv0
    refine ⟨upsertFirst_append pre row post id field "N/A" hpre hrow, ?_⟩
    simp [dictGet_dictSet]

/-- C2 fails on the code: the Back branch leaves the in-progress record
unchanged, so a previously stored value of the current field is still
present after Back rather than discarded. Concrete run: at the Inventory
Tag step with the tag already set to T1, Back keeps the pair. -/
theorem C2_counterexample :
    (addStep "TS" .inventoryTag [("Serial ID", "X"), ("Inventory Tag", "T1")]
        (Msg.text "Back")).record = [("Serial ID", "X"), ("Inventory Tag", "T1")] ∧
    dictGet (addStep "TS" .inventoryTag [("Serial ID", "X"), ("Inventory Tag", "T1")]
        (Msg.text "Back")).record "Inventory Tag" = some "T1" :=
  ⟨rfl, rfl⟩

/-- C2 amended: at every step except Serial ID, Back leaves the in-progress
record entirely unchanged (no sentinel fallback is stored, and a previously
set value of the current field is preserved, not discarded), re-emits the
prompt of the previous field and transitions to the previous step. -/
theorem C2_back_semantics : ∀ now s r, s ≠ AddState.serialId →
    addStep now s r (Msg.text "Back") = ⟨addPrev s, r, [backPrompt s], none⟩ := by
  intro now s r hs
  cases s <;> first
    | exact absurd rfl hs
    | rfl

theorem C2_back_semantics_witness :
    addStep "TS" .inventoryTag [("Serial ID", "X")] (Msg.text "Back")
      = ⟨addPrev .inventoryTag, [("Serial ID", "X")],
          [backPrompt .inventoryTag], none⟩ :=
  C2_back_semantics "TS" .inventoryTag [("Serial ID", "X")] (by decide)

theorem foldl_digits (ds : List Nat) (a : Nat) :
    ds.foldl (fun x d => 10 * x + d) a
      = a * 10 ^ ds.length + Nat.ofDigits 10 ds.reverse := by
  induction ds generalizing a with
  | nil => simp
  | cons d ds ih =>
    simp only [List.foldl_cons, List.reverse_cons, Nat.ofDigits_append,
      List.length_cons, List.length_reverse, Nat.ofDigits_singleton,
      ih (10 * a + d)]
    ring

theorem digitsToNat_eq (s : String) :
    digitsToNat s = Nat.ofDigits 10 ((s.data.map digitVal).reverse) := by
  unfold digitsToNat
  rw [show (fun (a : Nat) (c : Char) => 10 * a + digitVal c)
        = (fun a c => (fun (x d : Nat) => 10 * x + d) a (digitVal c)) from rfl,
      ← List.foldl_map, foldl_digits]
  simp

/-- C3. The integer-range validator accepts exactly the nonempty all-digit
strings whose standard base-10 value (most significant digit first) lies in
the inclusive range, and rejects everything else, including the boundary
literals below lo and above hi, signed and decimal forms, the empty string
and non-digit strings, for all three ranges used by the program (rates 0-10,
battery level 0-4, seat height 1-10). -/
theorem C3_int_range_validator :
    (∀ lo hi s, validateIntRange lo hi s = true ↔
      (s.data ≠ [] ∧ (∀ c ∈ s.data, c.isDigit = true) ∧
        lo ≤ Nat.ofDigits 10 ((s.data.map digitVal).reverse) ∧
        Nat.ofDigits 10 ((s.data.map digitVal).reverse) ≤ hi)) ∧
    (validateIntRange 0 10 "0" = true ∧ validateIntRange 0 10 "10" = true ∧
     validateIntRange 0 10 "11" = false ∧
     validateIntRange 0 4 "0" = true ∧ validateIntRange 0 4 "4" = true ∧
     validateIntRange 0 4 "5" = false ∧
     validateIntRange 1 10 "1" = true ∧ validateIntRange 1 10 "10" = true ∧
     validateIntRange 1 10 "0" = false ∧ validateIntRange 1 10 "11" = false ∧
     validateIntRange 0 10 "-1" = false ∧ validateIntRange 0 4 "-1" = false ∧
     validateIntRange 0 10 "+5" = false ∧ validateIntRange 0 10 "3.5" = false ∧
     validateIntRange 0 10 "" = false ∧ validateIntRange 0 10 "abc" = false ∧
     validateIntRange 0 10 " 5" = false) := by
  constructor
  · intro lo hi s
    rw [validateIntRange, pyIsdigit, digitsToNat_eq]
    simp [List.isEmpty_iff, and_assoc]
  · decide

theorem zip_dictGet_nodup : ∀ {ks vs : List String}, ks.Nodup →
    ks.length = vs.length →
    ks.map (fun c => (dictGet (ks.zip vs) c).getD "") = vs
  | [], vs, _, h => by
    cases vs with
    | nil => rfl
    | cons v vs => simp at h
  | k :: ks, vs, nd, h => by
    cases vs with
    | nil => simp at h
    | cons v vs =>
      have hk : dictGet ((k, v) :: ks.zip vs) k = some v := by simp [dictGet]
      have htail : ks.map (fun c => (dictGet ((k, v) :: ks.zip vs) c).getD "")
          = ks.map (fun c => (dictGet (ks.zip vs) c).getD "") := by
        apply List.map_congr_left
        intro c hc
        have hne : ¬ k = c := fun e => (List.nodup_cons.mp nd).1 (e ▸ hc)
        simp [dictGet, hne]
      have hlen : ks.length = vs.length := by simpa using h
      simp only [List.zip_cons_cons, List.map_cons, hk, Option.getD_some, htail,
        zip_dictGet_nodup (List.nodup_cons.mp nd).2 hlen]

theorem saveRow_read_row {row : List String}
    (h : row.length = CSV_COLUMNS.length) :
    saveRow (CSV_COLUMNS.zip row) = row := by
  unfold saveRow
  exact zip_dictGet_nodup (by decide) h.symm

theorem read_write_id {t : List (List String)}
    (h : ∀ row ∈ t, row.length = CSV_COLUMNS.length) :
    write_csv (read_csv t) = t := by
  unfold write_csv read_csv
  rw [List.map_map]
  have h2 : ∀ row ∈ t, (saveRow ∘ fun row => CSV_COLUMNS.zip row) row = id row :=
    fun row hrow => saveRow_read_row (h row hrow)
  rw [List.map_congr_left h2, List.map_id]

/-- C6. Reading all records from the CSV content and immediately writing
them back reproduces the content unchanged, for every table whose rows have
one cell per schema column. -/
theorem C6_save_load_roundtrip (t : List (List String))
    (h : ∀ row ∈ t, row.length = CSV_COLUMNS.length) :
    write_csv (read_csv t) = t :=
  read_write_id h

theorem C6_save_load_roundtrip_witness :
    (∀ row ∈ [["BK-001", "T1", "5", "6", "7", "8", "9", "3", "true", "4",
               "1.0, 2.0", "10", "ok", "2025-01-01 00:00:00"]],
        row.length = CSV_COLUMNS.length) ∧
    write_csv (read_csv [["BK-001", "T1", "5", "6", "7", "8", "9", "3", "true",
        "4", "1.0, 2.0", "10", "ok", "2025-01-01 00:00:00"]])
      = [["BK-001", "T1", "5", "6", "7", "8", "9", "3", "true", "4",
          "1.0, 2.0", "10", "ok", "2025-01-01 00:00:00"]] :=
  ⟨by decide, C6_save_load_roundtrip _ (by decide)⟩

theorem runAddFrom_cons_step {now : String} {s : AddState} {r : Record}
    {t : List (List String)} {m : Msg} {ms : List Msg} {s2 : AddState}
    {r2 : Record} {reps : List String}
    (ho : addStep now s r m = ⟨some s2, r2, reps, none⟩) :
    runAddFrom now s r t (m :: ms) = runAddFrom now s2 r2 t ms := by
  simp only [runAddFrom, ho]

theorem runAddFrom_cons_final {now : String} {s : AddState} {r : Record}
    {t : List (List String)} {m : Msg} {ms : List Msg}
    {r2 rcd : Record} {reps : List String}
    (ho : addStep now s r m = ⟨none, r2, reps, some rcd⟩) :
    runAddFrom now s r t (m :: ms) = (none, write_csv (read_csv t ++ [rcd])) := by
  simp only [runAddFrom, ho]

/-- C4. Entering the add flow, supplying BK-001 as Serial ID and the token
Skip at each of the twelve following steps appends exactly one record to the
stored table, after all previously stored rows: Serial ID BK-001, the
sentinel in every other prompted column and the timestamp in the Date
column. -/
theorem C4_all_skipped (now : String) (t : List (List String))
    (h : ∀ row ∈ t, row.length = CSV_COLUMNS.length) :
    runAdd now
      [Msg.text "BK-001", Msg.text "Skip", Msg.text "Skip", Msg.text "Skip",
       Msg.text "Skip", Msg.text "Skip", Msg.text "Skip", Msg.text "Skip",
       Msg.text "Skip", Msg.text "Skip", Msg.text "Skip", Msg.text "Skip",
       Msg.text "Skip"] t
      = (none, t ++ [["BK-001", "N/A", "N/A", "N/A", "N/A", "N/A", "N/A",
                      "N/A", "N/A", "N/A", "N/A", "N/A", "N/A", now]]) := by
  have e1 : addStep now .serialId [] (Msg.text "BK-001")
      = ⟨some .inventoryTag, [("Serial ID", "BK-001")],
          ["Enter Inventory Tag:"], none⟩ := rfl
  have e2 : addStep now .inventoryTag [("Serial ID", "BK-001")] (Msg.text "Skip")
      = ⟨some .location,
          [("Serial ID", "BK-001"), ("Inventory Tag", "N/A")],
          ["Location:"], none⟩ := rfl
  have e3 : addStep now .location
      [("Serial ID", "BK-001"), ("Inventory Tag", "N/A")] (Msg.text "Skip")
      = ⟨some .parkingAngel,
          [("Serial ID", "BK-001"), ("Inventory Tag", "N/A"), ("Location", "N/A")],
          ["Is Straight Parking Angel? "], none⟩ := rfl
  have e4 : addStep now .parkingAngel
      [("Serial ID", "BK-001"), ("Inventory Tag", "N/A"), ("Location", "N/A")]
      (Msg.text "Skip")
      = ⟨some .tiresRate,
          [("Serial ID", "BK-001"), ("Inventory Tag", "N/A"), ("Location", "N/A"),
           ("Is Straight Parking Angel", "N/A")],
          ["Tires Rate (0-10):"], none⟩ := rfl
  have e5 : addStep now .tiresRate
      [("Serial ID", "BK-001"), ("Inventory Tag", "N/A"), ("Location", "N/A"),
       ("Is Straight Parking Angel", "N/A")] (Msg.text "Skip")
      = ⟨some .seatHeight,
          [("Serial ID", "BK-001"), ("Inventory Tag", "N/A"), ("Location", "N/A"),
           ("Is Straight Parking Angel", "N/A"), ("Tires Rate", "N/A")],
          ["Seat Hight (1-10):"], none⟩ := rfl
  have e6 : addStep now .seatHeight
      [("Serial ID", "BK-001"), ("Inventory Tag", "N/A"), ("Location", "N/A"),
       ("Is Straight Parking Angel", "N/A"), ("Tires Rate", "N/A")]
      (Msg.text "Skip")
      = ⟨some .appearenceRate,
          [("Serial ID", "BK-001"), ("Inventory Tag", "N/A"), ("Location", "N/A"),
           ("Is Straight Parking Angel", "N/A"), ("Tires Rate", "N/A"),
           ("Seat Hight", "N/A")],
          ["Appearence Rate (0-10):"], none⟩ := rfl
  have e7 : addStep now .appearenceRate
      [("Serial ID", "BK-001"), ("Inventory Tag", "N/A"), ("Location", "N/A"),
       ("Is Straight Parking Angel", "N/A"), ("Tires Rate", "N/A"),
       ("Seat Hight", "N/A")] (Msg.text "Skip")
      = ⟨some .batteryLevel,
          [("Serial ID", "BK-001"), ("Inventory Tag", "N/A"), ("Location", "N/A"),
           ("Is Straight Parking Angel", "N/A"), ("Tires Rate", "N/A"),
           ("Seat Hight", "N/A"), ("Appearence Rate", "N/A")],
          ["Battery Level (0-4):"], none⟩ := rfl
  have e8 : addStep now .batteryLevel
      [("Serial ID", "BK-001"), ("Inventory Tag", "N/A"), ("Location", "N/A"),
       ("Is Straight Parking Angel", "N/A"), ("Tires Rate", "N/A"),
       ("Seat Hight", "N/A"), ("Appearence Rate", "N/A")] (Msg.text "Skip")
      = ⟨some .leftBrakeRate,
          [("Serial ID", "BK-001"), ("Inventory Tag", "N/A"), ("Location", "N/A"),
           ("Is Straight Parking Angel", "N/A"), ("Tires Rate", "N/A"),
           ("Seat Hight", "N/A"), ("Appearence Rate", "N/A"),
           ("Battery Level", "N/A")],
          ["Left Brake Rate (0-10):"], none⟩ := rfl
  have e9 : addStep now .leftBrakeRate
      [("Serial ID", "BK-001"), ("Inventory Tag", "N/A"), ("Location", "N/A"),
       ("Is Straight Parking Angel", "N/A"), ("Tires Rate", "N/A"),
       ("Seat Hight", "N/A"), ("Appearence Rate", "N/A"),
       ("Battery Level", "N/A")] (Msg.text "Skip")
      = ⟨some .rightBrakeRate,
          [("Serial ID", "BK-001"), ("Inventory Tag", "N/A"), ("Location", "N/A"),
           ("Is Straight Parking Angel", "N/A"), ("Tires Rate", "N/A"),
           ("Seat Hight", "N/A"), ("Appearence Rate", "N/A"),
           ("Battery Level", "N/A"), ("Left Brake Rate", "N/A")],
          ["Right Brake Rate (0-10):"], none⟩ := rfl
  have e10 : addStep now .rightBrakeRate
      [("Serial ID", "BK-001"), ("Inventory Tag", "N/A"), ("Location", "N/A"),
       ("Is Straight Parking Angel", "N/A"), ("Tires Rate", "N/A"),
       ("Seat Hight", "N/A"), ("Appearence Rate", "N/A"),
       ("Battery Level", "N/A"), ("Left Brake Rate", "N/A")] (Msg.text "Skip")
      = ⟨some .pedalingRate,
          [("Serial ID", "BK-001"), ("Inventory Tag", "N/A"), ("Location", "N/A"),
           ("Is Straight Parking Angel", "N/A"), ("Tires Rate", "N/A"),
           ("Seat Hight", "N/A"), ("Appearence Rate", "N/A"),
           ("Battery Level", "N/A"), ("Left Brake Rate", "N/A"),
           ("Right Brake Rate", "N/A")],
          ["Pedaling Rate (0-10):"], none⟩ := rfl
  have e11 : addStep now .pedalingRate
      [("Serial ID", "BK-001"), ("Inventory Tag", "N/A"), ("Location", "N/A"),
       ("Is Straight Parking Angel", "N/A"), ("Tires Rate", "N/A"),
       ("Seat Hight", "N/A"), ("Appearence Rate", "N/A"),
       ("Battery Level", "N/A"), ("Left Brake Rate", "N/A"),
       ("Right Brake Rate", "N/A")] (Msg.text "Skip")
      = ⟨some .speedRate,
          [("Serial ID", "BK-001"), ("Inventory Tag", "N/A"), ("Location", "N/A"),
           ("Is Straight Parking Angel", "N/A"), ("Tires Rate", "N/A"),
           ("Seat Hight", "N/A"), ("Appearence Rate", "N/A"),
           ("Battery Level", "N/A"), ("Left Brake Rate", "N/A"),
           ("Right Brake Rate", "N/A"), ("Pedaling Rate", "N/A")],
          ["Speed Rate (0-10):"], none⟩ := rfl
  have e12 : addStep now .speedRate
      [("Serial ID", "BK-001"), ("Inventory Tag", "N/A"), ("Location", "N/A"),
       ("Is Straight Parking Angel", "N/A"), ("Tires Rate", "N/A"),
       ("Seat Hight", "N/A"), ("Appearence Rate", "N/A"),
       ("Battery Level", "N/A"), ("Left Brake Rate", "N/A"),
       ("Right Brake Rate", "N/A"), ("Pedaling Rate", "N/A")] (Msg.text "Skip")
      = ⟨some .note,
          [("Serial ID", "BK-001"), ("Inventory Tag", "N/A"), ("Location", "N/A"),
           ("Is Straight Parking Angel", "N/A"), ("Tires Rate", "N/A"),
           ("Seat Hight", "N/A"), ("Appearence Rate", "N/A"),
           ("Battery Level", "N/A"), ("Left Brake Rate", "N/A"),
           ("Right Brake Rate", "N/A"), ("Pedaling Rate", "N/A"),
           ("Speed Rate", "N/A")],
          ["Any notes?"], none⟩ := rfl
  have e13 : addStep now .note
      [("Serial ID", "BK-001"), ("Inventory Tag", "N/A"), ("Location", "N/A"),
       ("Is Straight Parking Angel", "N/A"), ("Tires Rate", "N/A"),
       ("Seat Hight", "N/A"), ("Appearence Rate", "N/A"),
       ("Battery Level", "N/A"), ("Left Brake Rate", "N/A"),
       ("Right Brake Rate", "N/A"), ("Pedaling Rate", "N/A"),
       ("Speed Rate", "N/A")] (Msg.text "Skip")
      = ⟨none, [],
          [format_summary
            [("Serial ID", "BK-001"), ("Inventory Tag", "N/A"), ("Location", "N/A"),
             ("Is Straight Parking Angel", "N/A"), ("Tires Rate", "N/A"),
             ("Seat Hight", "N/A"), ("Appearence Rate", "N/A"),
             ("Battery Level", "N/A"), ("Left Brake Rate", "N/A"),
             ("Right Brake Rate", "N/A"), ("Pedaling Rate", "N/A"),
             ("Speed Rate", "N/A"), ("Note", "N/A"), ("Date", now)], "Saved"],
          some [("Serial ID", "BK-001"), ("Inventory Tag", "N/A"), ("Location", "N/A"),
             ("Is Straight Parking Angel", "N/A"), ("Tires Rate", "N/A"),
             ("Seat Hight", "N/A"), ("Appearence Rate", "N/A"),
             ("Battery Level", "N/A"), ("Left Brake Rate", "N/A"),
             ("Right Brake Rate", "N/A"), ("Pedaling Rate", "N/A"),
             ("Speed Rate", "N/A"), ("Note", "N/A"), ("Date", now)]⟩ := rfl
  unfold runAdd
  rw [runAddFrom_cons_step e1, runAddFrom_cons_step e2,
    runAddFrom_cons_step e3, runAddFrom_cons_step e4, runAddFrom_cons_step e5,
    runAddFrom_cons_step e6, runAddFrom_cons_step e7, runAddFrom_cons_step e8,
    runAddFrom_cons_step e9, runAddFrom_cons_step e10, runAddFrom_cons_step e11,
    runAddFrom_cons_step e12, runAddFrom_cons_final e13]
  have h2 : write_csv (read_csv t ++
          [[("Serial ID", "BK-001"), ("Inventory Tag", "N/A"), ("Location", "N/A"),
            ("Is Straight Parking Angel", "N/A"), ("Tires Rate", "N/A"),
            ("Seat Hight", "N/A"), ("Appearence Rate", "N/A"),
            ("Battery Level", "N/A"), ("Left Brake Rate", "N/A"),
            ("Right Brake Rate", "N/A"), ("Pedaling Rate", "N/A"),
            ("Speed Rate", "N/A"), ("Note", "N/A"), ("Date", now)]])
      = write_csv (read_csv t) ++
          write_csv [[("Serial ID", "BK-001"), ("Inventory Tag", "N/A"),
            ("Location", "N/A"), ("Is Straight Parking Angel", "N/A"),
            ("Tires Rate", "N/A"), ("Seat Hight", "N/A"),
            ("Appearence Rate", "N/A"), ("Battery Level", "N/A"),
            ("Left Brake Rate", "N/A"), ("Right Brake Rate", "N/A"),
            ("Pedaling Rate", "N/A"), ("Speed Rate", "N/A"), ("Note", "N/A"),
            ("Date", now)]] := by
    simp [write_csv]
  rw [h2, read_write_id h]
  rfl

theorem C4_all_skipped_witness :
    (∀ row ∈ ([] : List (List String)), row.length = CSV_COLUMNS.length) ∧
    runAdd "2025-01-01 00:00:00"
      [Msg.text "BK-001", Msg.text "Skip", Msg.text "Skip", Msg.text "Skip",
       Msg.text "Skip", Msg.text "Skip", Msg.text "Skip", Msg.text "Skip",
       Msg.text "Skip", Msg.text "Skip", Msg.text "Skip", Msg.text "Skip",
       Msg.text "Skip"] []
      = (none, [] ++ [["BK-001", "N/A", "N/A", "N/A", "N/A", "N/A", "N/A",
                       "N/A", "N/A", "N/A", "N/A", "N/A", "N/A",
                       "2025-01-01 00:00:00"]]) :=
  ⟨by decide, C4_all_skipped "2025-01-01 00:00:00" [] (by decide)⟩

theorem C1_skip_semantics_witness :
    dictGet (effRecord (addStep "TS" .tiresRate [("Tires Rate", "7")]
        (Msg.text "Skip"))) (fieldOf .tiresRate) = some "7" ∧
    dictGet (effRecord (addStep "TS" .seatHeight [] (Msg.text "Skip")))
        (fieldOf .seatHeight) = some "N/A" ∧
    update_value_step "Tires Rate" "BK-001" (Msg.text "Skip") [] =
      ⟨none, write_csv (upsertFirst (read_csv []) "BK-001" "Tires Rate" "N/A")⟩ ∧
    (upsertFirst ([] ++ [("Serial ID", "BK-001"), ("Tires Rate", "7")] :: [])
          "BK-001" "Tires Rate" "N/A"
        = [] ++ dictSet [("Serial ID", "BK-001"), ("Tires Rate", "7")]
            "Tires Rate" "N/A" :: [] ∧
      dictGet (dictSet [("Serial ID", "BK-001"), ("Tires Rate", "7")]
          "Tires Rate" "N/A") "Tires Rate" = some "N/A") :=
  ⟨C1_skip_semantics.1 "TS" .tiresRate _ "7" (by decide) rfl,
   C1_skip_semantics.2.1 "TS" .seatHeight [] (by decide) rfl,
   C1_skip_semantics.2.2.1 "Tires Rate" "BK-001" (Msg.text "Skip") [] rfl,
   C1_skip_semantics.2.2.2 [] _ [] "BK-001" "Tires Rate" "7"
     (by intro q hq; cases hq) rfl rfl⟩

theorem filter_length_lt_iff {α : Type} (l : List α) (p : α → Bool) :
    (l.filter p).length < l.length ↔ ∃ x ∈ l, ¬ p x = true := by
  induction l with
  | nil => simp
  | cons a l ih =>
    by_cases hpa : p a = true
    · simp only [List.filter_cons, if_pos hpa, List.length_cons,
        Nat.add_lt_add_iff_right, ih, List.mem_cons]
      constructor
      · rintro ⟨x, hx, hpx⟩
        exact ⟨x, Or.inr hx, hpx⟩
      · rintro ⟨x, rfl | hx, hpx⟩
        · exact absurd hpa hpx
        · exact ⟨x, hx, hpx⟩
    · simp only [List.filter_cons, if_neg hpa, List.length_cons]
      constructor
      · intro _
        exact ⟨a, List.mem_cons_self _ _, hpa⟩
      · intro _
        exact Nat.lt_succ_of_le (List.length_filter_le p l)

theorem delete_command_success_iff (t : List (List String)) (id : String) :
    (delete_command t id).2 = true ↔
      ∃ r ∈ read_csv t, getField r "Serial ID" = id := by
  have hiff : (deleteRecords (read_csv t) id).length < (read_csv t).length ↔
      ∃ r ∈ read_csv t, getField r "Serial ID" = id := by
    rw [deleteRecords, filter_length_lt_iff]
    constructor
    · rintro ⟨x, hx, hpx⟩
      refine ⟨x, hx, ?_⟩
      by_contra hne
      exact hpx (bne_iff_ne.mpr hne)
    · rintro ⟨x, hx, heq⟩
      exact ⟨x, hx, fun hb => (bne_iff_ne.mp hb) heq⟩
  simp only [delete_command]
  split_ifs with hlt
  · exact ⟨fun _ => hiff.mp hlt, fun _ => rfl⟩
  · constructor
    · intro h
      exact absurd h (by simp)
    · intro hex
      exact absurd (hiff.mpr hex) hlt

/-- C5. Multiplicity handling is asymmetric: deleting removes every record
whose Serial ID matches and succeeds exactly when a match existed, while the
update lookup returns only the first matching record and the update write
mutates only the first matching record, leaving any later duplicates
untouched. -/
theorem C5_multiplicity :
    (∀ data id row, row ∈ deleteRecords data id ↔
      (row ∈ data ∧ getField row "Serial ID" ≠ id)) ∧
    (∀ t id, (delete_command t id).2 = true ↔
      ∃ r ∈ read_csv t, getField r "Serial ID" = id) ∧
    (∀ pre row post id, (∀ q ∈ pre, getField q "Serial ID" ≠ id) →
      getField row "Serial ID" = id →
      findBySerialId (pre ++ row :: post) id = some row ∧
      ∀ field v, upsertFirst (pre ++ row :: post) id field v
        = pre ++ dictSet row field v :: post) := by
  refine ⟨?_, ?_, ?_⟩
  · intro data id row
    simp [deleteRecords, List.mem_filter, bne_iff_ne]
  · exact delete_command_success_iff
  · intro pre row post id hpre hrow
    constructor
    · induction pre with
      | nil =>
        simp [findBySerialId, List.find?, hrow]
      | cons q rest ih =>
        have hq : (getField q "Serial ID" == id) = false :=
          beq_eq_false_iff_ne.mpr (hpre q (List.mem_cons_self _ _))
        simp only [List.cons_append, findBySerialId] at ih ⊢
        rw [List.find?]
        rw [hq]
        exact ih (fun x hx => hpre x (List.mem_cons_of_mem _ hx))
    · intro field v
      exact upsertFirst_append pre row post id field v hpre hrow

theorem C5_multiplicity_witness :
    ((("Serial ID", "A") :: [("Serial ID", "B")] ∈
        deleteRecords [[("Serial ID", "A"), ("Serial ID", "B")]] "Z") ↔
      ([("Serial ID", "A"), ("Serial ID", "B")] ∈
          [[("Serial ID", "A"), ("Serial ID", "B")]] ∧
        getField [("Serial ID", "A"), ("Serial ID", "B")] "Serial ID" ≠ "Z")) ∧
    (findBySerialId ([] ++ [("Serial ID", "A")] :: [[("Serial ID", "A")]]) "A"
        = some [("Serial ID", "A")] ∧
      ∀ field v, upsertFirst ([] ++ [("Serial ID", "A")] :: [[("Serial ID", "A")]])
          "A" field v
        = [] ++ dictSet [("Serial ID", "A")] field v :: [[("Serial ID", "A")]]) :=
  ⟨C5_multiplicity.1 [[("Serial ID", "A"), ("Serial ID", "B")]] "Z" _,
   C5_multiplicity.2.2 [] [("Serial ID", "A")] [[("Serial ID", "A")]] "A"
     (by intro q hq; cases hq) rfl⟩

/-- A one-row table whose Serial ID cell contains two consecutive spaces,
used to exercise the whitespace handling of the delete command. -/
def doubleSpaceRow : List String :=
  ["BK  001", "N/A", "N/A", "N/A", "N/A", "N/A", "N/A", "N/A", "N/A", "N/A",
   "N/A", "N/A", "N/A", "2025-01-01 00:00:00"]

/-- C9 fails on the code: the identifier compared against stored records is
the whitespace-split tokens of the command-line remainder re-joined with
single spaces, not the literal remainder. With remainder BK-space-space-001,
the stored record whose Serial ID is exactly that literal remainder is not
found, because the comparison uses the collapsed form BK-space-001. -/
theorem C9_counterexample :
    joinedSerialId "BK  001" = "BK 001" ∧
    getField (CSV_COLUMNS.zip doubleSpaceRow) "Serial ID" = "BK  001" ∧
    delete_cmd "BK  001" [doubleSpaceRow] = ([doubleSpaceRow], false) :=
  ⟨rfl, rfl, rfl⟩

/-- C9 amended: the identifier matched against stored records is the
whitespace-split token list of the command-line remainder joined with single
spaces (runs of whitespace collapse, leading and trailing whitespace is
dropped); when at least one token is present, deletion succeeds exactly when
some stored record carries that normalized identifier. -/
theorem C9_normalized_delete (rest : String) (t : List (List String))
    (h : pySplit rest ≠ []) :
    ((delete_cmd rest t).2 = true ↔
      ∃ r ∈ read_csv t, getField r "Serial ID" = joinedSerialId rest) := by
  unfold delete_cmd
  rw [if_neg (by simpa [List.isEmpty_iff] using h)]
  exact delete_command_success_iff t (joinedSerialId rest)

theorem C9_normalized_delete_witness :
    (delete_cmd "BK 001" []).2 = true ↔
      ∃ r ∈ read_csv [], getField r "Serial ID" = joinedSerialId "BK 001" :=
  C9_normalized_delete "BK 001" [] (by decide)

/-- Modelled from the claim wording, for comparison only: a summary that
lists the fields in the schema column order (the order of the store header
columns) instead of the record insertion order. -/
def summarySchemaOrder (data : Record) : String :=
  CSV_COLUMNS.foldl (fun acc c => acc ++ c ++ ": " ++ getField data c ++ "\n")
    "Summary:\n\n"

/-- The in-progress record the engine holds on entering the Note step of a
straight run that typed BK-001 and then pressed Skip eleven times: fields in
conversation insertion order. -/
def demoRecord12 : Record :=
  [("Serial ID", "BK-001"), ("Inventory Tag", "N/A"), ("Location", "N/A"),
   ("Is Straight Parking Angel", "N/A"), ("Tires Rate", "N/A"),
   ("Seat Hight", "N/A"), ("Appearence Rate", "N/A"), ("Battery Level", "N/A"),
   ("Left Brake Rate", "N/A"), ("Right Brake Rate", "N/A"),
   ("Pedaling Rate", "N/A"), ("Speed Rate", "N/A")]

/-- The record the engine commits after a final Skip at the Note step of the
straight run, with the Date stamped last. -/
def demoRecord14 : Record :=
  demoRecord12 ++ [("Note", "N/A"), ("Date", "2025-06-01 10:00:00")]

/-- C7 fails on the code: format_summary iterates the in-progress dict in
insertion order, which is the conversation step order, not the order of the
store header columns; on the straight-skip run the rendered summary differs
from a summary in schema column order. -/
theorem C7_counterexample :
    (addStep "2025-06-01 10:00:00" .note demoRecord12 (Msg.text "Skip")).replies
        = [format_summary demoRecord14, "Saved"] ∧
    (addStep "2025-06-01 10:00:00" .note demoRecord12 (Msg.text "Skip")).finalized
        = some demoRecord14 ∧
    format_summary demoRecord14 ≠ summarySchemaOrder demoRecord14 := by
  refine ⟨rfl, rfl, by decide⟩

/-- C7 amended: at the final step of the add flow, after the note value is
accepted or defaulted, the engine stamps the Date field and then renders the
summary listing the fields in the in-progress record insertion order (the
conversation step order for a straight run, with Date last), which is not
the order of the store header columns. -/
theorem C7_finalize_summary :
    (∀ now r t2, t2 ≠ "Back" →
      ∃ r2, (addStep now .note r (Msg.text t2)).finalized = some r2 ∧
        dictGet r2 "Date" = some now ∧
        (addStep now .note r (Msg.text t2)).replies = [format_summary r2, "Saved"] ∧
        (addStep now .note r (Msg.text t2)).next = none) ∧
    (demoRecord14.map Prod.fst =
      ["Serial ID", "Inventory Tag", "Location", "Is Straight Parking Angel",
       "Tires Rate", "Seat Hight", "Appearence Rate", "Battery Level",
       "Left Brake Rate", "Right Brake Rate", "Pedaling Rate", "Speed Rate",
       "Note", "Date"] ∧
     demoRecord14.map Prod.fst ≠ CSV_COLUMNS) := by
  constructor
  · intro now r t2 ht
    by_cases hskip : t2 = "Skip"
    · subst hskip
      refine ⟨dictSet (setIfAbsent r "Note" "N/A") "Date" now, ?_, ?_, ?_, ?_⟩ <;>
        simp [addStep, Msg.pyText, dictGet_dictSet]
    · refine ⟨dictSet (dictSet r "Note" t2) "Date" now, ?_, ?_, ?_, ?_⟩ <;>
        simp [addStep, Msg.pyText, hskip, ht, dictGet_dictSet]
  · exact ⟨rfl, by decide⟩

theorem C7_finalize_summary_witness :
    ∃ r2, (addStep "TS" .note [] (Msg.text "hello")).finalized = some r2 ∧
      dictGet r2 "Date" = some "TS" ∧
      (addStep "TS" .note [] (Msg.text "hello")).replies
        = [format_summary r2, "Saved"] ∧
      (addStep "TS" .note [] (Msg.text "hello")).next = none :=
  C7_finalize_summary.1 "TS" [] "hello" (by decide)

/-- No pair of the record outside the Serial ID key holds one of the two
control tokens as its value. -/
def noCtl (r : Record) : Prop :=
  ∀ p ∈ r, p.1 ≠ "Serial ID" → p.2 ≠ "Back" ∧ p.2 ≠ "Skip"

theorem noCtl_dictSet {r : Record} {k v : String} (h : noCtl r)
    (hv : k = "Serial ID" ∨ (v ≠ "Back" ∧ v ≠ "Skip")) :
    noCtl (dictSet r k v) := by
  intro p hp hne
  rcases mem_dictSet hp with rfl | hp2
  · rcases hv with hk | hv
    · exact absurd hk hne
    · exact hv
  · exact h p hp2 hne

theorem noCtl_setIfAbsent {r : Record} {k v : String} (h : noCtl r)
    (hv : k = "Serial ID" ∨ (v ≠ "Back" ∧ v ≠ "Skip")) :
    noCtl (setIfAbsent r k v) := by
  unfold setIfAbsent
  split
  · exact h
  · exact noCtl_dictSet h hv

theorem rendered_location_has_comma (lat lon : String) :
    (',' : Char) ∈ (lat ++ ", " ++ lon).data := by
  rw [String.data_append, String.data_append]
  exact List.mem_append_left _ (List.mem_append_right _ (by decide))

theorem rendered_location_ne_ctl (lat lon : String) :
    lat ++ ", " ++ lon ≠ "Back" ∧ lat ++ ", " ++ lon ≠ "Skip" := by
  constructor
  · intro h
    have h2 := rendered_location_has_comma lat lon
    rw [h] at h2
    exact absurd h2 (by decide)
  · intro h
    have h2 := rendered_location_has_comma lat lon
    rw [h] at h2
    exact absurd h2 (by decide)

theorem noCtl_nil : noCtl [] := by
  intro p hp
  cases hp

/-- C10. Control tokens are absorbed asymmetrically: at the Serial ID step
any text except Cancel, including the literals Back and Skip, is stored
verbatim as the Serial ID; at every later add-flow step the record never
gains the literal Back or Skip outside the Serial ID key (the clock stamp is
assumed not to spell a control token, as its timestamp format guarantees),
and in ProvideValue every value the update flow writes differs from both
control tokens. -/
theorem C10_control_token_absorption :
    (∀ now r t2, t2 ≠ "Cancel" →
      addStep now .serialId r (Msg.text t2)
        = ⟨some .inventoryTag, dictSet r "Serial ID" t2,
            ["Enter Inventory Tag:"], none⟩) ∧
    (∀ now s r m, s ≠ AddState.serialId → now ≠ "Back" → now ≠ "Skip" →
      noCtl r →
      noCtl ((addStep now s r m).record) ∧
      ∀ rcd, (addStep now s r m).finalized = some rcd → noCtl rcd) ∧
    (∀ field m v, update_value_action field m = UpdAction.write v →
      v ≠ "Back" ∧ v ≠ "Skip") := by
  refine ⟨?_, ?_, ?_⟩
  · intro now r t2 ht
    simp [addStep, Msg.pyText, ht]
  · intro now s r m hs hb hk hr
    cases s
    case serialId => exact absurd rfl hs
    case inventoryTag =>
      cases m with
      | location lat lon => exact ⟨hr, fun rcd h => by simp [addStep, Msg.pyText] at h⟩
      | text t =>
        simp only [addStep, Msg.pyText]
        split_ifs with h1 h2
        · exact ⟨noCtl_setIfAbsent hr (Or.inr (by decide)),
            fun rcd h => by simp [addStep, Msg.pyText] at h⟩
        · exact ⟨hr, fun rcd h => by simp [addStep, Msg.pyText] at h⟩
        · exact ⟨noCtl_dictSet hr (Or.inr ⟨h2, h1⟩),
            fun rcd h => by simp [addStep, Msg.pyText] at h⟩
    case location =>
      cases m with
      | location lat lon =>
        exact ⟨noCtl_dictSet hr (Or.inr (rendered_location_ne_ctl lat lon)),
          fun rcd h => by simp [addStep, Msg.pyText] at h⟩
      | text t =>
        simp only [addStep, Msg.pyText]
        split_ifs with h1 h2
        · exact ⟨noCtl_setIfAbsent hr (Or.inr (by decide)),
            fun rcd h => by simp [addStep, Msg.pyText] at h⟩
        · exact ⟨hr, fun rcd h => by simp [addStep, Msg.pyText] at h⟩
        · exact ⟨hr, fun rcd h => by simp [addStep, Msg.pyText] at h⟩
    case parkingAngel =>
      cases m with
      | location lat lon => exact ⟨hr, fun rcd h => by simp [addStep, Msg.pyText] at h⟩
      | text t =>
        simp only [addStep, Msg.pyText]
        split_ifs with h1 h2 h3
        · exact ⟨noCtl_setIfAbsent hr (Or.inr (by decide)),
            fun rcd h => by simp [addStep, Msg.pyText] at h⟩
        · exact ⟨hr, fun rcd h => by simp [addStep, Msg.pyText] at h⟩
        · have hlow : t.toLower ≠ "Back" ∧ t.toLower ≠ "Skip" := by
            rcases h3 with h3 | h3 <;> rw [h3] <;> exact ⟨by decide, by decide⟩
          exact ⟨noCtl_dictSet hr (Or.inr hlow),
            fun rcd h => by simp [addStep, Msg.pyText] at h⟩
        · exact ⟨hr, fun rcd h => by simp [addStep, Msg.pyText] at h⟩
    case tiresRate =>
      cases m with
      | location lat lon => exact ⟨hr, fun rcd h => by simp [addStep, Msg.pyText] at h⟩
      | text t =>
        simp only [addStep, Msg.pyText]
        split_ifs with h1 h2 h3
        · exact ⟨noCtl_setIfAbsent hr (Or.inr (by decide)),
            fun rcd h => by simp [addStep, Msg.pyText] at h⟩
        · exact ⟨hr, fun rcd h => by simp [addStep, Msg.pyText] at h⟩
        · exact ⟨noCtl_dictSet hr (Or.inr ⟨h2, h1⟩),
            fun rcd h => by simp [addStep, Msg.pyText] at h⟩
        · exact ⟨hr, fun rcd h => by simp [addStep, Msg.pyText] at h⟩
    case seatHeight =>
      cases m with
      | location lat lon => exact ⟨hr, fun rcd h => by simp [addStep, Msg.pyText] at h⟩
      | text t =>
        simp only [addStep, Msg.pyText]
        split_ifs with h1 h2 h3
        · exact ⟨noCtl_setIfAbsent hr (Or.inr (by decide)),
            fun rcd h => by simp [addStep, Msg.pyText] at h⟩
        · exact ⟨hr, fun rcd h => by simp [addStep, Msg.pyText] at h⟩
        · exact ⟨noCtl_dictSet hr (Or.inr ⟨h2, h1⟩),
            fun rcd h => by simp [addStep, Msg.pyText] at h⟩
        · exact ⟨hr, fun rcd h => by simp [addStep, Msg.pyText] at h⟩
    case appearenceRate =>
      cases m with
      | location lat lon => exact ⟨hr, fun rcd h => by simp [addStep, Msg.pyText] at h⟩
      | text t =>
        simp only [addStep, Msg.pyText]
        split_ifs with h1 h2 h3
        · exact ⟨noCtl_setIfAbsent hr (Or.inr (by decide)),
            fun rcd h => by simp [addStep, Msg.pyText] at h⟩
        · exact ⟨hr, fun rcd h => by simp [addStep, Msg.pyText] at h⟩
        · exact ⟨noCtl_dictSet hr (Or.inr ⟨h2, h1⟩),
            fun rcd h => by simp [addStep, Msg.pyText] at h⟩
        · exact ⟨hr, fun rcd h => by simp [addStep, Msg.pyText] at h⟩
    case batteryLevel =>
      cases m with
      | location lat lon => exact ⟨hr, fun rcd h => by simp [addStep, Msg.pyText] at h⟩
      | text t =>
        simp only [addStep, Msg.pyText]
        split_ifs with h1 h2 h3
        · exact ⟨noCtl_setIfAbsent hr (Or.inr (by decide)),
            fun rcd h => by simp [addStep, Msg.pyText] at h⟩
        · exact ⟨hr, fun rcd h => by simp [addStep, Msg.pyText] at h⟩
        · exact ⟨noCtl_dictSet hr (Or.inr ⟨h2, h1⟩),
            fun rcd h => by simp [addStep, Msg.pyText] at h⟩
        · exact ⟨hr, fun rcd h => by simp [addStep, Msg.pyText] at h⟩
    case leftBrakeRate =>
      cases m with
      | location lat lon => exact ⟨hr, fun rcd h => by simp [addStep, Msg.pyText] at h⟩
      | text t =>
        simp only [addStep, Msg.pyText]
        split_ifs with h1 h2 h3
        · exact ⟨noCtl_setIfAbsent hr (Or.inr (by decide)),
            fun rcd h => by simp [addStep, Msg.pyText] at h⟩
        · exact ⟨hr, fun rcd h => by simp [addStep, Msg.pyText] at h⟩
        · exact ⟨noCtl_dictSet hr (Or.inr ⟨h2, h1⟩),
            fun rcd h => by simp [addStep, Msg.pyText] at h⟩
        · exact ⟨hr, fun rcd h => by simp [addStep, Msg.pyText] at h⟩
    case rightBrakeRate =>
      cases m with
      | location lat lon => exact ⟨hr, fun rcd h => by simp [addStep, Msg.pyText] at h⟩
      | text t =>
        simp only [addStep, Msg.pyText]
        split_ifs with h1 h2 h3
        · exact ⟨noCtl_setIfAbsent hr (Or.inr (by decide)),
            fun rcd h => by simp [addStep, Msg.pyText] at h⟩
        · exact ⟨hr, fun rcd h => by simp [addStep, Msg.pyText] at h⟩
        · exact ⟨noCtl_dictSet hr (Or.inr ⟨h2, h1⟩),
            fun rcd h => by simp [addStep, Msg.pyText] at h⟩
        · exact ⟨hr, fun rcd h => by simp [addStep, Msg.pyText] at h⟩
    case pedalingRate =>
      cases m with
      | location lat lon => exact ⟨hr, fun rcd h => by simp [addStep, Msg.pyText] at h⟩
      | text t =>
        simp only [addStep, Msg.pyText]
        split_ifs with h1 h2 h3
        · exact ⟨noCtl_setIfAbsent hr (Or.inr (by decide)),
            fun rcd h => by simp [addStep, Msg.pyText] at h⟩
        · exact ⟨hr, fun rcd h => by simp [addStep, Msg.pyText] at h⟩
        · exact ⟨noCtl_dictSet hr (Or.inr ⟨h2, h1⟩),
            fun rcd h => by simp [addStep, Msg.pyText] at h⟩
        · exact ⟨hr, fun rcd h => by simp [addStep, Msg.pyText] at h⟩
    case speedRate =>
      cases m with
      | location lat lon => exact ⟨hr, fun rcd h => by simp [addStep, Msg.pyText] at h⟩
      | text t =>
        simp only [addStep, Msg.pyText]
        split_ifs with h1 h2 h3
        · exact ⟨noCtl_setIfAbsent hr (Or.inr (by decide)),
            fun rcd h => by simp [addStep, Msg.pyText] at h⟩
        · exact ⟨hr, fun rcd h => by simp [addStep, Msg.pyText] at h⟩
        · exact ⟨noCtl_dictSet hr (Or.inr ⟨h2, h1⟩),
            fun rcd h => by simp [addStep, Msg.pyText] at h⟩
        · exact ⟨hr, fun rcd h => by simp [addStep, Msg.pyText] at h⟩
    case note =>
      cases m with
      | location lat lon => exact ⟨hr, fun rcd h => by simp [addStep, Msg.pyText] at h⟩
      | text t =>
        simp only [addStep, Msg.pyText]
        split_ifs with h1 h2
        · refine ⟨noCtl_nil, ?_⟩
          intro rcd h
          have h4 := Option.some.inj h
          rw [← h4]
          exact noCtl_dictSet (noCtl_setIfAbsent hr (Or.inr (by decide)))
            (Or.inr ⟨hb, hk⟩)
        · exact ⟨hr, fun rcd h => by simp [addStep, Msg.pyText] at h⟩
        · refine ⟨noCtl_nil, ?_⟩
          intro rcd h
          have h4 := Option.some.inj h
          rw [← h4]
          exact noCtl_dictSet (noCtl_dictSet hr (Or.inr ⟨h2, h1⟩))
            (Or.inr ⟨hb, hk⟩)
  · intro field m v hw
    cases m with
    | location lat lon =>
      simp only [update_value_action, Msg.pyText, reduceCtorEq, if_false] at hw
      split_ifs at hw with h1 h2
      · cases hw
        exact rendered_location_ne_ctl lat lon
      · cases hw
        exact ⟨by decide, by decide⟩
    | text t =>
      by_cases hsk : t = "Skip"
      · subst hsk
        simp [update_value_action, Msg.pyText] at hw
        exact hw ▸ ⟨by decide, by decide⟩
      · by_cases hbk : t = "Back"
        · subst hbk
          simp [update_value_action, Msg.pyText, hsk] at hw
        · simp only [update_value_action, Msg.pyText, Option.some.injEq,
            Option.getD_some, hsk, hbk, if_false] at hw
          split_ifs at hw
          all_goals cases hw
          all_goals try exact ⟨hbk, hsk⟩
          all_goals
            rcases ‹t.toLower = "true" ∨ t.toLower = "false"› with h | h <;>
              rw [h] <;> exact ⟨by decide, by decide⟩

theorem C10_control_token_absorption_witness :
    (addStep "TS" .serialId [] (Msg.text "Back")
        = ⟨some .inventoryTag, dictSet [] "Serial ID" "Back",
            ["Enter Inventory Tag:"], none⟩) ∧
    (noCtl ((addStep "2025-01-01 00:00:00" .inventoryTag [] (Msg.text "x")).record) ∧
      ∀ rcd, (addStep "2025-01-01 00:00:00" .inventoryTag []
          (Msg.text "x")).finalized = some rcd → noCtl rcd) ∧
    ("hello" ≠ "Back" ∧ "hello" ≠ "Skip") :=
  ⟨C10_control_token_absorption.1 "TS" [] "Back" (by decide),
   C10_control_token_absorption.2.1 "2025-01-01 00:00:00" .inventoryTag []
     (Msg.text "x") (by decide) (by decide) (by decide) noCtl_nil,
   C10_control_token_absorption.2.2 "Note" (Msg.text "hello") "hello" rfl⟩

theorem WFrow_length {row : List String} (h : WFrow row) :
    row.length = CSV_COLUMNS.length :=
  (List.Forall₂.length_eq h).symm

theorem dictGet_zip_of_forall₂ {P : String → String → Prop} :
    ∀ {ks vs : List String}, ks.Nodup → List.Forall₂ P ks vs →
      ∀ c ∈ ks, ∃ w, dictGet (ks.zip vs) c = some w ∧ P c w := by
  intro ks
  induction ks with
  | nil =>
    intro vs _ _ c hc
    cases hc
  | cons k ks ih =>
    intro vs nd hf c hc
    cases hf with
    | cons hP hf2 =>
      rcases List.mem_cons.mp hc with rfl | hc2
      · exact ⟨_, by simp [dictGet], hP⟩
      · have hne : ¬ k = c := fun e => (List.nodup_cons.mp nd).1 (e ▸ hc2)
        obtain ⟨w, hw, hPw⟩ := ih (List.nodup_cons.mp nd).2 hf2 c hc2
        exact ⟨w, by simpa [dictGet, hne] using hw, hPw⟩

theorem forall₂_map_dictGet {P : String → String → Prop} :
    ∀ (ks : List String) (r : Record),
      (∀ c ∈ ks, ∃ w, dictGet r c = some w ∧ P c w) →
      List.Forall₂ P ks (ks.map fun c => (dictGet r c).getD "") := by
  intro ks
  induction ks with
  | nil =>
    intro r _
    exact List.Forall₂.nil
  | cons k ks ih =>
    intro r h
    obtain ⟨w, hw, hPw⟩ := h k (List.mem_cons_self _ _)
    refine List.Forall₂.cons ?_ (ih r (fun c hc => h c (List.mem_cons_of_mem _ hc)))
    show P k ((dictGet r k).getD "")
    rw [hw]
    exact hPw

theorem WFrow_saveRow_of {r : Record}
    (h : ∀ c ∈ CSV_COLUMNS, ∃ w, dictGet r c = some w ∧ fieldOK c w) :
    WFrow (saveRow r) :=
  forall₂_map_dictGet CSV_COLUMNS r h

theorem WFrow_upsert_row {row : List String} {f v : String}
    (hrow : WFrow row) (hfv : fieldOK f v) :
    WFrow (saveRow (dictSet (CSV_COLUMNS.zip row) f v)) := by
  apply WFrow_saveRow_of
  intro c hc
  by_cases hcf : f = c
  · subst hcf
    exact ⟨v, by rw [dictGet_dictSet, if_pos rfl], hfv⟩
  · obtain ⟨w, hw, hPw⟩ := dictGet_zip_of_forall₂ (by decide) hrow c hc
    exact ⟨w, by rw [dictGet_dictSet, if_neg hcf]; exact hw, hPw⟩

theorem mem_upsertFirst : ∀ {data : List Record} {id field v : String}
    {r0 : Record}, r0 ∈ upsertFirst data id field v →
    r0 ∈ data ∨ ∃ r1 ∈ data, r0 = dictSet r1 field v := by
  intro data
  induction data with
  | nil =>
    intro id field v r0 h
    cases h
  | cons row rest ih =>
    intro id field v r0 h
    by_cases hm : getField row "Serial ID" = id
    · rw [upsertFirst, if_pos hm] at h
      rcases List.mem_cons.mp h with rfl | h2
      · exact Or.inr ⟨row, List.mem_cons_self _ _, rfl⟩
      · exact Or.inl (List.mem_cons_of_mem _ h2)
    · rw [upsertFirst, if_neg hm] at h
      rcases List.mem_cons.mp h with rfl | h2
      · exact Or.inl (List.mem_cons_self _ _)
      · rcases ih h2 with h3 | ⟨r1, hr1, rfl⟩
        · exact Or.inl (List.mem_cons_of_mem _ h3)
        · exact Or.inr ⟨r1, List.mem_cons_of_mem _ hr1, rfl⟩

theorem delete_preserves_wf (t : List (List String)) (id : String)
    (hT : tableWF t) : tableWF (delete_command t id).1 := by
  simp only [delete_command]
  split_ifs with hlt
  · intro row2 hrow2
    simp only [write_csv, List.mem_map] at hrow2
    obtain ⟨r0, hr0, rfl⟩ := hrow2
    rw [deleteRecords] at hr0
    have hr1 : r0 ∈ read_csv t := List.mem_of_mem_filter hr0
    simp only [read_csv, List.mem_map] at hr1
    obtain ⟨row, hrow, rfl⟩ := hr1
    rw [saveRow_read_row (WFrow_length (hT row hrow))]
    exact hT row hrow
  · exact hT

theorem update_action_fieldOK (field : String) (m : Msg) (v : String)
    (hw : update_value_action field m = .write v) : fieldOK field v := by
  by_cases hsk : m.pyText = some "Skip"
  · rw [update_value_action.eq_def, if_pos hsk] at hw
    cases hw
    exact Or.inr rfl
  · by_cases hbk : m.pyText = some "Back"
    · rw [update_value_action.eq_def, if_neg hsk, if_pos hbk] at hw
      cases hw
    · rw [update_value_action.eq_def, if_neg hsk, if_neg hbk] at hw
      by_cases hloc : field = "Location"
      · subst hloc
        rw [if_pos rfl] at hw
        cases m with
        | text t => cases hw
        | location lat lon =>
          cases hw
          exact Or.inl rfl
      · rw [if_neg hloc] at hw
        by_cases hnt : field = "Note" ∨ field = "Inventory Tag"
        · rw [if_pos hnt] at hw
          cases hw
          rcases hnt with rfl | rfl
          · exact Or.inl rfl
          · exact Or.inl rfl
        · rw [if_neg hnt] at hw
          cases hmt : m.pyText with
          | none =>
            rw [hmt] at hw
            cases hw
          | some t =>
            rw [hmt] at hw
            simp only [] at hw
            by_cases hrf : rateFields.contains field = true
            · rw [if_pos hrf] at hw
              by_cases hv1 : validateIntRange 0 10 t = true
              · rw [if_pos hv1] at hw
                cases hw
                refine Or.inl ?_
                rw [validForField, if_pos hrf]
                exact hv1
              · rw [if_neg hv1] at hw
                cases hw
            · rw [if_neg hrf] at hw
              by_cases hbat : field = "Battery Level"
              · subst hbat
                rw [if_pos rfl] at hw
                by_cases hv2 : validateIntRange 0 4 t = true
                · rw [if_pos hv2] at hw
                  cases hw
                  exact Or.inl hv2
                · rw [if_neg hv2] at hw
                  cases hw
              · rw [if_neg hbat] at hw
                by_cases hang : field = "Is Straight Parking Angel"
                · subst hang
                  rw [if_pos rfl] at hw
                  by_cases hv3 : t.toLower = "true" ∨ t.toLower = "false"
                  · rw [if_pos hv3] at hw
                    cases hw
                    rcases hv3 with h | h <;>
                      exact Or.inl (by simp [validForField, rateFields, h])
                  · rw [if_neg hv3] at hw
                    cases hw
                · rw [if_neg hang] at hw
                  by_cases hseat : field = "Seat Hight"
                  · subst hseat
                    rw [if_pos rfl] at hw
                    by_cases hv4 : validateIntRange 1 10 t = true
                    · rw [if_pos hv4] at hw
                      cases hw
                      exact Or.inl hv4
                    · rw [if_neg hv4] at hw
                      cases hw
                  · rw [if_neg hseat] at hw
                    cases hw
                    refine Or.inl ?_
                    rw [validForField, if_neg hrf, if_neg hbat, if_neg hang,
                      if_neg hseat]

theorem update_preserves_wf (field serial : String) (m : Msg)
    (t : List (List String)) (hT : tableWF t) :
    tableWF (update_value_step field serial m t).table := by
  cases hact : update_value_action field m with
  | back =>
    simp only [update_value_step, hact]
    exact hT
  | stay =>
    simp only [update_value_step, hact]
    exact hT
  | write v =>
    simp only [update_value_step, hact]
    have hfv : fieldOK field v := update_action_fieldOK field m v hact
    intro row2 hrow2
    simp only [write_csv, List.mem_map] at hrow2
    obtain ⟨r0, hr0, rfl⟩ := hrow2
    rcases mem_upsertFirst hr0 with hr1 | ⟨r1, hr1, rfl⟩
    · simp only [read_csv, List.mem_map] at hr1
      obtain ⟨row, hrow, rfl⟩ := hr1
      rw [saveRow_read_row (WFrow_length (hT row hrow))]
      exact hT row hrow
    · simp only [read_csv, List.mem_map] at hr1
      obtain ⟨row, hrow, rfl⟩ := hr1
      exact WFrow_upsert_row (hT row hrow) hfv

theorem fields_step {k f : String} {l : List String}
    (hk : k ∈ l ++ [f]) (hne : k ≠ f) : k ∈ l := by
  rcases List.mem_append.mp hk with h1 | h1
  · exact h1
  · simp only [List.mem_singleton] at h1
    exact absurd h1 hne

theorem Inv_back {s s2 : AddState} {r : Record} (h : Inv s r)
    (heq : fieldsBefore s = fieldsBefore s2 ++ [fieldOf s2]) : Inv s2 r :=
  ⟨h.1, fun k hk => h.2 k (heq ▸ List.mem_append_left _ hk)⟩

theorem Inv_advance_dictSet {s s2 : AddState} {r : Record} {v : String}
    (h : Inv s r) (hf : fieldOK (fieldOf s) v)
    (heq : fieldsBefore s2 = fieldsBefore s ++ [fieldOf s]) :
    Inv s2 (dictSet r (fieldOf s) v) := by
  refine ⟨recordOK_dictSet h.1 hf, ?_⟩
  intro k hk
  rw [heq] at hk
  apply isSome_dictSet_of
  intro hne
  exact h.2 k (fields_step hk hne)

theorem Inv_advance_setIfAbsent {s s2 : AddState} {r : Record} {v : String}
    (h : Inv s r) (hf : fieldOK (fieldOf s) v)
    (heq : fieldsBefore s2 = fieldsBefore s ++ [fieldOf s]) :
    Inv s2 (setIfAbsent r (fieldOf s) v) := by
  refine ⟨recordOK_setIfAbsent h.1 hf, ?_⟩
  intro k hk
  rw [heq] at hk
  apply isSome_setIfAbsent_of
  intro hne
  exact h.2 k (fields_step hk hne)

theorem angel_fieldOK {t : String}
    (h : t.toLower = "true" ∨ t.toLower = "false") :
    fieldOK "Is Straight Parking Angel" t.toLower := by
  rcases h with h | h <;> exact Or.inl (by simp [validForField, rateFields, h])

theorem addStep_inv (now : String) (s : AddState) (r : Record) (m : Msg)
    (hInv : Inv s r) :
    (∀ s2, (addStep now s r m).next = some s2 →
      Inv s2 (addStep now s r m).record) ∧
    (∀ rcd, (addStep now s r m).finalized = some rcd →
      recordOK rcd ∧ ∀ c ∈ CSV_COLUMNS, (dictGet rcd c).isSome = true) := by
  cases s
  case serialId =>
    cases m with
    | location lat lon =>
      exact ⟨fun s2 hs2 => by cases Option.some.inj hs2; exact hInv,
        fun rcd h => by simp [addStep, Msg.pyText] at h⟩
    | text t =>
      simp only [addStep, Msg.pyText, Option.some.injEq]
      split_ifs with h1
      · exact ⟨fun s2 h => by simp at h, fun rcd h => by simp at h⟩
      · exact ⟨fun s2 hs2 => by
          cases Option.some.inj hs2
          exact Inv_advance_dictSet hInv (Or.inl rfl) rfl,
          fun rcd h => by simp at h⟩
  case inventoryTag =>
    cases m with
    | location lat lon =>
      exact ⟨fun s2 hs2 => by cases Option.some.inj hs2; exact hInv,
        fun rcd h => by simp [addStep, Msg.pyText] at h⟩
    | text t =>
      simp only [addStep, Msg.pyText, Option.some.injEq]
      split_ifs with h1 h2
      · exact ⟨fun s2 hs2 => by
          cases Option.some.inj hs2
          exact Inv_advance_setIfAbsent hInv (Or.inr rfl) rfl,
          fun rcd h => by simp at h⟩
      · exact ⟨fun s2 hs2 => by cases Option.some.inj hs2; exact Inv_back hInv rfl,
          fun rcd h => by simp at h⟩
      · exact ⟨fun s2 hs2 => by
          cases Option.some.inj hs2
          exact Inv_advance_dictSet hInv (Or.inl rfl) rfl,
          fun rcd h => by simp at h⟩
  case location =>
    cases m with
    | location lat lon =>
      refine ⟨fun s2 hs2 => ?_, fun rcd h => by simp [addStep, Msg.pyText] at h⟩
      cases Option.some.inj hs2
      exact Inv_advance_dictSet hInv (Or.inl rfl) rfl
    | text t =>
      simp only [addStep, Msg.pyText, Option.some.injEq]
      split_ifs with h1 h2
      · exact ⟨fun s2 hs2 => by
          cases Option.some.inj hs2
          exact Inv_advance_setIfAbsent hInv (Or.inr rfl) rfl,
          fun rcd h => by simp at h⟩
      · exact ⟨fun s2 hs2 => by cases Option.some.inj hs2; exact Inv_back hInv rfl,
          fun rcd h => by simp at h⟩
      · exact ⟨fun s2 hs2 => by cases Option.some.inj hs2; exact hInv, fun rcd h => by simp at h⟩
  case parkingAngel =>
    cases m with
    | location lat lon =>
      exact ⟨fun s2 hs2 => by cases Option.some.inj hs2; exact hInv,
        fun rcd h => by simp [addStep, Msg.pyText] at h⟩
    | text t =>
      simp only [addStep, Msg.pyText, Option.some.injEq]
      split_ifs with h1 h2 h3
      · exact ⟨fun s2 hs2 => by
          cases Option.some.inj hs2
          exact Inv_advance_setIfAbsent hInv (Or.inr rfl) rfl,
          fun rcd h => by simp at h⟩
      · exact ⟨fun s2 hs2 => by cases Option.some.inj hs2; exact Inv_back hInv rfl,
          fun rcd h => by simp at h⟩
      · exact ⟨fun s2 hs2 => by
          cases Option.some.inj hs2
          exact Inv_advance_dictSet hInv (angel_fieldOK h3) rfl,
          fun rcd h => by simp at h⟩
      · exact ⟨fun s2 hs2 => by cases Option.some.inj hs2; exact hInv, fun rcd h => by simp at h⟩
  case tiresRate =>
    cases m with
    | location lat lon =>
      exact ⟨fun s2 hs2 => by cases Option.some.inj hs2; exact hInv,
        fun rcd h => by simp [addStep, Msg.pyText] at h⟩
    | text t =>
      simp only [addStep, Msg.pyText, Option.some.injEq]
      split_ifs with h1 h2 h3
      · exact ⟨fun s2 hs2 => by
          cases Option.some.inj hs2
          exact Inv_advance_setIfAbsent hInv (Or.inr rfl) rfl,
          fun rcd h => by simp at h⟩
      · exact ⟨fun s2 hs2 => by cases Option.some.inj hs2; exact Inv_back hInv rfl,
          fun rcd h => by simp at h⟩
      · exact ⟨fun s2 hs2 => by
          cases Option.some.inj hs2
          exact Inv_advance_dictSet hInv (Or.inl h3) rfl,
          fun rcd h => by simp at h⟩
      · exact ⟨fun s2 hs2 => by cases Option.some.inj hs2; exact hInv, fun rcd h => by simp at h⟩
  case seatHeight =>
    cases m with
    | location lat lon =>
      exact ⟨fun s2 hs2 => by cases Option.some.inj hs2; exact hInv,
        fun rcd h => by simp [addStep, Msg.pyText] at h⟩
    | text t =>
      simp only [addStep, Msg.pyText, Option.some.injEq]
      split_ifs with h1 h2 h3
      · exact ⟨fun s2 hs2 => by
          cases Option.some.inj hs2
          exact Inv_advance_setIfAbsent hInv (Or.inr rfl) rfl,
          fun rcd h => by simp at h⟩
      · exact ⟨fun s2 hs2 => by cases Option.some.inj hs2; exact Inv_back hInv rfl,
          fun rcd h => by simp at h⟩
      · exact ⟨fun s2 hs2 => by
          cases Option.some.inj hs2
          exact Inv_advance_dictSet hInv (Or.inl h3) rfl,
          fun rcd h => by simp at h⟩
      · exact ⟨fun s2 hs2 => by cases Option.some.inj hs2; exact hInv, fun rcd h => by simp at h⟩
  case appearenceRate =>
    cases m with
    | location lat lon =>
      exact ⟨fun s2 hs2 => by cases Option.some.inj hs2; exact hInv,
        fun rcd h => by simp [addStep, Msg.pyText] at h⟩
    | text t =>
      simp only [addStep, Msg.pyText, Option.some.injEq]
      split_ifs with h1 h2 h3
      · exact ⟨fun s2 hs2 => by
          cases Option.some.inj hs2
          exact Inv_advance_setIfAbsent hInv (Or.inr rfl) rfl,
          fun rcd h => by simp at h⟩
      · exact ⟨fun s2 hs2 => by cases Option.some.inj hs2; exact Inv_back hInv rfl,
          fun rcd h => by simp at h⟩
      · exact ⟨fun s2 hs2 => by
          cases Option.some.inj hs2
          exact Inv_advance_dictSet hInv (Or.inl h3) rfl,
          fun rcd h => by simp at h⟩
      · exact ⟨fun s2 hs2 => by cases Option.some.inj hs2; exact hInv, fun rcd h => by simp at h⟩
  case batteryLevel =>
    cases m with
    | location lat lon =>
      exact ⟨fun s2 hs2 => by cases Option.some.inj hs2; exact hInv,
        fun rcd h => by simp [addStep, Msg.pyText] at h⟩
    | text t =>
      simp only [addStep, Msg.pyText, Option.some.injEq]
      split_ifs with h1 h2 h3
      · exact ⟨fun s2 hs2 => by
          cases Option.some.inj hs2
          exact Inv_advance_setIfAbsent hInv (Or.inr rfl) rfl,
          fun rcd h => by simp at h⟩
      · exact ⟨fun s2 hs2 => by cases Option.some.inj hs2; exact Inv_back hInv rfl,
          fun rcd h => by simp at h⟩
      · exact ⟨fun s2 hs2 => by
          cases Option.some.inj hs2
          exact Inv_advance_dictSet hInv (Or.inl h3) rfl,
          fun rcd h => by simp at h⟩
      · exact ⟨fun s2 hs2 => by cases Option.some.inj hs2; exact hInv, fun rcd h => by simp at h⟩
  case leftBrakeRate =>
    cases m with
    | location lat lon =>
      exact ⟨fun s2 hs2 => by cases Option.some.inj hs2; exact hInv,
        fun rcd h => by simp [addStep, Msg.pyText] at h⟩
    | text t =>
      simp only [addStep, Msg.pyText, Option.some.injEq]
      split_ifs with h1 h2 h3
      · exact ⟨fun s2 hs2 => by
          cases Option.some.inj hs2
          exact Inv_advance_setIfAbsent hInv (Or.inr rfl) rfl,
          fun rcd h => by simp at h⟩
      · exact ⟨fun s2 hs2 => by cases Option.some.inj hs2; exact Inv_back hInv rfl,
          fun rcd h => by simp at h⟩
      · exact ⟨fun s2 hs2 => by
          cases Option.some.inj hs2
          exact Inv_advance_dictSet hInv (Or.inl h3) rfl,
          fun rcd h => by simp at h⟩
      · exact ⟨fun s2 hs2 => by cases Option.some.inj hs2; exact hInv, fun rcd h => by simp at h⟩
  case rightBrakeRate =>
    cases m with
    | location lat lon =>
      exact ⟨fun s2 hs2 => by cases Option.some.inj hs2; exact hInv,
        fun rcd h => by simp [addStep, Msg.pyText] at h⟩
    | text t =>
      simp only [addStep, Msg.pyText, Option.some.injEq]
      split_ifs with h1 h2 h3
      · exact ⟨fun s2 hs2 => by
          cases Option.some.inj hs2
          exact Inv_advance_setIfAbsent hInv (Or.inr rfl) rfl,
          fun rcd h => by simp at h⟩
      · exact ⟨fun s2 hs2 => by cases Option.some.inj hs2; exact Inv_back hInv rfl,
          fun rcd h => by simp at h⟩
      · exact ⟨fun s2 hs2 => by
          cases Option.some.inj hs2
          exact Inv_advance_dictSet hInv (Or.inl h3) rfl,
          fun rcd h => by simp at h⟩
      · exact ⟨fun s2 hs2 => by cases Option.some.inj hs2; exact hInv, fun rcd h => by simp at h⟩
  case pedalingRate =>
    cases m with
    | location lat lon =>
      exact ⟨fun s2 hs2 => by cases Option.some.inj hs2; exact hInv,
        fun rcd h => by simp [addStep, Msg.pyText] at h⟩
    | text t =>
      simp only [addStep, Msg.pyText, Option.some.injEq]
      split_ifs with h1 h2 h3
      · exact ⟨fun s2 hs2 => by
          cases Option.some.inj hs2
          exact Inv_advance_setIfAbsent hInv (Or.inr rfl) rfl,
          fun rcd h => by simp at h⟩
      · exact ⟨fun s2 hs2 => by cases Option.some.inj hs2; exact Inv_back hInv rfl,
          fun rcd h => by simp at h⟩
      · exact ⟨fun s2 hs2 => by
          cases Option.some.inj hs2
          exact Inv_advance_dictSet hInv (Or.inl h3) rfl,
          fun rcd h => by simp at h⟩
      · exact ⟨fun s2 hs2 => by cases Option.some.inj hs2; exact hInv, fun rcd h => by simp at h⟩
  case speedRate =>
    cases m with
    | location lat lon =>
      exact ⟨fun s2 hs2 => by cases Option.some.inj hs2; exact hInv,
        fun rcd h => by simp [addStep, Msg.pyText] at h⟩
    | text t =>
      simp only [addStep, Msg.pyText, Option.some.injEq]
      split_ifs with h1 h2 h3
      · exact ⟨fun s2 hs2 => by
          cases Option.some.inj hs2
          exact Inv_advance_setIfAbsent hInv (Or.inr rfl) rfl,
          fun rcd h => by simp at h⟩
      · exact ⟨fun s2 hs2 => by cases Option.some.inj hs2; exact Inv_back hInv rfl,
          fun rcd h => by simp at h⟩
      · exact ⟨fun s2 hs2 => by
          cases Option.some.inj hs2
          exact Inv_advance_dictSet hInv (Or.inl h3) rfl,
          fun rcd h => by simp at h⟩
      · exact ⟨fun s2 hs2 => by cases Option.some.inj hs2; exact hInv, fun rcd h => by simp at h⟩
  case note =>
    have hmem : ∀ x ∈ CSV_COLUMNS,
        x = "Note" ∨ x = "Date" ∨ x ∈ fieldsBefore AddState.note := by decide
    cases m with
    | location lat lon =>
      exact ⟨fun s2 hs2 => by cases Option.some.inj hs2; exact hInv,
        fun rcd h => by simp [addStep, Msg.pyText] at h⟩
    | text t =>
      simp only [addStep, Msg.pyText, Option.some.injEq]
      split_ifs with h1 h2
      · refine ⟨fun s2 h => by simp at h, ?_⟩
        intro rcd h
        cases Option.some.inj h
        refine ⟨recordOK_dictSet (recordOK_setIfAbsent hInv.1 (Or.inr rfl))
          (Or.inl rfl), ?_⟩
        intro c hc
        rcases hmem c hc with rfl | rfl | h3
        · exact isSome_dictSet_of (fun _ => isSome_setIfAbsent_self)
        · exact isSome_dictSet_of (fun hne => absurd rfl hne)
        · exact isSome_dictSet_of
            (fun _ => isSome_setIfAbsent_of (fun _ => hInv.2 c h3))
      · exact ⟨fun s2 hs2 => by cases Option.some.inj hs2; exact Inv_back hInv rfl,
          fun rcd h => by simp at h⟩
      · refine ⟨fun s2 h => by simp at h, ?_⟩
        intro rcd h
        cases Option.some.inj h
        refine ⟨recordOK_dictSet (recordOK_dictSet hInv.1 (Or.inl rfl))
          (Or.inl rfl), ?_⟩
        intro c hc
        rcases hmem c hc with rfl | rfl | h3
        · exact isSome_dictSet_of
            (fun _ => isSome_dictSet_of (fun hne => absurd rfl hne))
        · exact isSome_dictSet_of (fun hne => absurd rfl hne)
        · exact isSome_dictSet_of
            (fun _ => isSome_dictSet_of (fun _ => hInv.2 c h3))

theorem finalize_table_wf {t : List (List String)} {rcd : Record}
    (hT : tableWF t) (hOK : recordOK rcd)
    (hall : ∀ c ∈ CSV_COLUMNS, (dictGet rcd c).isSome = true) :
    tableWF (write_csv (read_csv t ++ [rcd])) := by
  intro row2 hrow2
  simp only [write_csv, List.mem_map] at hrow2
  obtain ⟨r0, hr0, rfl⟩ := hrow2
  rcases List.mem_append.mp hr0 with hr1 | hr1
  · simp only [read_csv, List.mem_map] at hr1
    obtain ⟨row, hrow, rfl⟩ := hr1
    rw [saveRow_read_row (WFrow_length (hT row hrow))]
    exact hT row hrow
  · simp only [List.mem_singleton] at hr1
    subst hr1
    apply WFrow_saveRow_of
    intro c hc
    obtain ⟨w, hw⟩ := Option.isSome_iff_exists.mp (hall c hc)
    exact ⟨w, hw, hOK (c, w) (mem_of_dictGet hw)⟩

theorem runAddFrom_wf (now : String) : ∀ (msgs : List Msg) (s : AddState)
    (r : Record) (t : List (List String)), Inv s r → tableWF t →
    tableWF (runAddFrom now s r t msgs).2
  | [], s, r, t, _, hT => by simpa [runAddFrom] using hT
  | m :: ms, s, r, t, hInv, hT => by
    have hstep := addStep_inv now s r m hInv
    cases hn : (addStep now s r m).next with
    | none =>
      cases hf : (addStep now s r m).finalized with
      | none =>
        simp only [runAddFrom, hn, hf]
        exact hT
      | some rcd =>
        simp only [runAddFrom, hn, hf]
        exact finalize_table_wf hT (hstep.2 rcd hf).1 (hstep.2 rcd hf).2
    | some s2 =>
      cases hf : (addStep now s r m).finalized with
      | none =>
        simp only [runAddFrom, hn, hf]
        exact runAddFrom_wf now ms s2 _ t (hstep.1 s2 hn) hT
      | some rcd =>
        simp only [runAddFrom, hn, hf]
        exact runAddFrom_wf now ms s2 _ _ (hstep.1 s2 hn)
          (finalize_table_wf hT (hstep.2 rcd hf).1 (hstep.2 rcd hf).2)

/-- C8. The store invariant is preserved by every mutating operation: after
a delete, after an update-flow write and after an add-flow run from the
entry point, every row of the CSV content still has exactly one cell per
schema column, positionally in the schema column order, each cell either
accepted by the validator of its column or the sentinel. -/
theorem C8_store_invariant :
    (∀ t id, tableWF t → tableWF (delete_command t id).1) ∧
    (∀ field serial m t, tableWF t →
      tableWF (update_value_step field serial m t).table) ∧
    (∀ now msgs t, tableWF t → tableWF (runAdd now msgs t).2) := by
  refine ⟨?_, ?_, ?_⟩
  · intro t id hT
    exact delete_preserves_wf t id hT
  · intro field serial m t hT
    exact update_preserves_wf field serial m t hT
  · intro now msgs t hT
    exact runAddFrom_wf now msgs .serialId [] t
      ⟨fun p hp => absurd hp (List.not_mem_nil p), fun k hk => absurd hk (List.not_mem_nil k)⟩
      hT

theorem C8_store_invariant_witness :
    tableWF ((delete_command [] "BK-001").1) ∧
    tableWF ((update_value_step "Tires Rate" "BK-001" (Msg.text "7") []).table) ∧
    tableWF ((runAdd "2025-01-01 00:00:00" [Msg.text "BK-001"] []).2) :=
  ⟨C8_store_invariant.1 [] "BK-001" (fun row h => absurd h (List.not_mem_nil row)),
   C8_store_invariant.2.1 "Tires Rate" "BK-001" (Msg.text "7") []
     (fun row h => absurd h (List.not_mem_nil row)),
   C8_store_invariant.2.2 "2025-01-01 00:00:00" [Msg.text "BK-001"] []
     (fun row h => absurd h (List.not_mem_nil row))⟩

end BicingBot
